import Mathlib

namespace Safari

/-! ## Definitions: the shallow embedding of the program -/

/-- Tile kinds, as discriminated by `instanceof` checks and `toString` ids in
the source (`Entrance`, `Exit`, `Road`, hill by id `safari:hill`, and all
remaining kinds collapsed into `other`). -/
inductive TileKind where
  | entrance
  | exit
  | road
  | hill
  | other (id : String)
  deriving DecidableEq, Repr

/-- Sprite kinds: which registry (`herbivoreRegistry` / `carnivoreRegistry`)
contains the sprite's id, or which class (`Ranger`, `Poacher`, `Jeep`) the
sprite is an instance of. -/
inductive SpriteKind where
  | herbivore
  | carnivore
  | ranger
  | poacher
  | jeep
  deriving DecidableEq, Repr

/-- A sprite as the `Map` sees it: registration number (`regNumber`, the
model of JS object identity), kind, species id string, continuous position,
effective view distance, and the fields used by rangers (salary), jeeps
(passengers, chosen path) and the purchase logic (buy price, group id). -/
structure Sprite where
  id : ℕ
  kind : SpriteKind
  species : String
  pos : ℚ × ℚ
  viewDistance : ℚ
  buyPrice : ℚ
  salary : ℚ
  passengers : List ℕ
  path : List (ℤ × ℤ)
  group : ℕ
  deriving DecidableEq, Repr

/-- One entry of `Map._visiblesCache`: age, key (floored position and view
distance) and the two memoised result lists. Visible tiles are recorded by
their grid cell, which determines the tile object held in `Map._tiles`. -/
structure CacheEntry where
  time : ℚ
  position : ℤ × ℤ
  viewDistance : ℚ
  visibleTiles : List (ℤ × ℤ)
  visibleSprites : List Sprite
  deriving DecidableEq, Repr

/-- The state of `Map`: grid size, tile grid, live-sprite roster, visibility
cache, jeep and visitor queues (visitors by identity), planned road paths,
tour counter, group registry and the two spawn timers. -/
structure MapState where
  width : ℕ
  height : ℕ
  tiles : ℤ × ℤ → TileKind
  sprites : List Sprite
  cache : List CacheEntry
  waitingJeeps : List Sprite
  waitingVisitors : List ℕ
  paths : List (List (ℤ × ℤ))
  totalVisitorCount : ℕ
  groups : List (ℕ × String)
  plantTimer : ℚ
  poacherTimer : ℚ

/-- `Map.getVisibleSprites`: all sprites other than the querying one whose
position lies in the closed axis-aligned box of half-width `viewDistance`
around the querying sprite's floored position. -/
def getVisibleSprites (m : MapState) (s : Sprite) : List Sprite :=
  let vd := s.viewDistance
  let cellX : ℤ := ⌊s.pos.1⌋
  let cellY : ℤ := ⌊s.pos.2⌋
  m.sprites.filter fun o =>
    o.id ≠ s.id
      ∧ (cellX : ℚ) - vd ≤ o.pos.1 ∧ o.pos.1 ≤ (cellX : ℚ) + vd
      ∧ (cellY : ℚ) - vd ≤ o.pos.2 ∧ o.pos.2 ≤ (cellY : ℚ) + vd

/-- Number of iterations of the source's `for (let dx = -viewdistance; dx <=
viewdistance; dx++)` loop: `dx = i - vd` at iteration `i`, so `⌊2·vd⌋ + 1`
iterations when `vd ≥ 0` and none otherwise. -/
def scanSteps (vd : ℚ) : ℕ :=
  if 0 ≤ vd then (⌊2 * vd⌋).toNat + 1 else 0

/-- The grid cells `(⌊cellX + dx⌋, ⌊cellY + dy⌋)` scanned by
`Map.getVisibleTiles`, in loop order. -/
def scanCells (cellX cellY : ℤ) (vd : ℚ) : List (ℤ × ℤ) :=
  (List.range (scanSteps vd)).flatMap fun (i : ℕ) =>
    (List.range (scanSteps vd)).map fun (j : ℕ) =>
      (cellX + ⌊(i : ℚ) - vd⌋, cellY + ⌊(j : ℚ) - vd⌋)

/-- The in-bounds predicate guarding the push in both visibility queries. -/
def cellInBounds (m : MapState) (c : ℤ × ℤ) : Prop :=
  0 ≤ c.1 ∧ c.1 < (m.width : ℤ) ∧ 0 ≤ c.2 ∧ c.2 < (m.height : ℤ)

instance (m : MapState) (c : ℤ × ℤ) : Decidable (cellInBounds m c) :=
  inferInstanceAs (Decidable (0 ≤ c.1 ∧ c.1 < (m.width : ℤ) ∧ 0 ≤ c.2 ∧ c.2 < (m.height : ℤ)))

/-- `Map.getVisibleTiles`: scans the square window around the sprite's
floored position and keeps the in-bounds cells, in loop order. -/
def getVisibleTiles (m : MapState) (s : Sprite) : List (ℤ × ℤ) :=
  (scanCells ⌊s.pos.1⌋ ⌊s.pos.2⌋ s.viewDistance).filter fun c => cellInBounds m c

/-- The Chebyshev-box visibility predicate the specification describes: the
point `p` lies within the axis-aligned square of half-width `vd` centered on
the cell `(cx, cy)`. -/
def inViewSquare (cx cy : ℤ) (vd : ℚ) (p : ℚ × ℚ) : Prop :=
  (cx : ℚ) - vd ≤ p.1 ∧ p.1 ≤ (cx : ℚ) + vd ∧ (cy : ℚ) - vd ≤ p.2 ∧ p.2 ≤ (cy : ℚ) + vd

instance (cx cy : ℤ) (vd : ℚ) (p : ℚ × ℚ) : Decidable (inViewSquare cx cy vd p) := by
  unfold inViewSquare; infer_instance

/-- A 6×6 map holding no sprites, used as a concrete test state. -/
def smallMap : MapState where
  width := 6
  height := 6
  tiles := fun _ => TileKind.other "safari:sand"
  sprites := []
  cache := []
  waitingJeeps := []
  waitingVisitors := []
  paths := []
  totalVisitorCount := 0
  groups := []
  plantTimer := 0
  poacherTimer := 0

/-- A sprite standing at cell `(2,2)` whose effective view distance is the
fractional value `3/2` (an odd base view distance scaled by `1.5` on a hill). -/
def hillSprite : Sprite where
  id := 0
  kind := SpriteKind.herbivore
  species := "safari:zebra"
  pos := (2, 2)
  viewDistance := 3/2
  buyPrice := 0
  salary := 0
  passengers := []
  path := []
  group := 0

/-- A sprite at `(2,2)` with the integral view distance `1`. -/
def plainSprite : Sprite where
  id := 1
  kind := SpriteKind.herbivore
  species := "safari:zebra"
  pos := (2, 2)
  viewDistance := 1
  buyPrice := 0
  salary := 0
  passengers := []
  path := []
  group := 0

/-- The cache key comparison of the `updateVisiblesSignal` handler:
`v.position[0] === x && v.position[1] === y && v.viewDistance === vd` for the
requesting sprite's floored position and view distance. -/
def keyMatches (s : Sprite) (e : CacheEntry) : Prop :=
  e.position = (⌊s.pos.1⌋, ⌊s.pos.2⌋) ∧ e.viewDistance = s.viewDistance

instance (s : Sprite) (e : CacheEntry) : Decidable (keyMatches s e) := by
  unfold keyMatches; infer_instance

/-- Resetting `cached.time = 0` on the first cache entry satisfying `p`,
leaving every other entry untouched (the in-place mutation of the entry found
by `findIndex`). -/
def touchFirst (p : CacheEntry → Prop) [DecidablePred p] :
    List CacheEntry → List CacheEntry
  | [] => []
  | e :: rest =>
    if p e then { e with time := 0 } :: rest else e :: touchFirst p rest

/-- The entry pushed by the handler on an important request or a cache miss:
age `0`, the request key, and the freshly computed visibility lists. -/
def freshEntry (m : MapState) (s : Sprite) : CacheEntry where
  time := 0
  position := (⌊s.pos.1⌋, ⌊s.pos.2⌋)
  viewDistance := s.viewDistance
  visibleTiles := getVisibleTiles m s
  visibleSprites := getVisibleSprites m s

/-- The `updateVisiblesSignal` handler installed by the `Map` constructor.
Returns the new map state together with the tile and sprite lists delivered
to the requesting sprite's `updateVisibles`.  `findIndex` and the indexed
access are modelled by `find?`; `splice(idx, 1)` by `eraseP`. -/
def updateVisiblesHandler (m : MapState) (s : Sprite) (important : Bool) :
    MapState × List (ℤ × ℤ) × List Sprite :=
  let visibleTiles := getVisibleTiles m s
  let visibleSprites := getVisibleSprites m s
  match m.cache.find? (fun e => keyMatches s e) with
  | some e =>
    if important = false then
      ({ m with cache := touchFirst (keyMatches s) m.cache },
        e.visibleTiles, e.visibleSprites)
    else
      ({ m with cache := (m.cache.eraseP fun e => keyMatches s e) ++ [freshEntry m s] },
        visibleTiles, visibleSprites)
  | none =>
      ({ m with cache := m.cache ++ [freshEntry m s] }, visibleTiles, visibleSprites)

/-- The cache maintenance done by `Map.tick` before any agent acts: each
entry's age grows by `dt`, then entries whose age has reached `1` simulated
time-unit are evicted. -/
def tickCachePhase (dt : ℚ) (cache : List CacheEntry) : List CacheEntry :=
  (cache.map fun e => { e with time := e.time + dt }).filter fun e => e.time < 1

/-- The state mutations an `act(dt)` call can perform on the `Map` through
its public methods and connected signals: `addSprite` (spawn), `removeSprite`
(the `animalDeadSignal` / `shooterDeadSignal` handlers), the
`tourFinishedSignal` handler (remove jeep, requeue it, count its four
passengers), a visibility refresh request, and the `tileEatenSignal` fallback
substitution. -/
inductive MapOp where
  | addSprite (s : Sprite)
  | removeSprite (id : ℕ)
  | tourFinished (j : Sprite)
  | refreshVisibles (s : Sprite) (important : Bool)
  | placeTile (c : ℤ × ℤ) (k : TileKind)

/-- Effect of one `MapOp` on the map state. -/
def applyMapOp (m : MapState) : MapOp → MapState
  | .addSprite s => { m with sprites := m.sprites ++ [s] }
  | .removeSprite i => { m with sprites := m.sprites.filter fun s => s.id ≠ i }
  | .tourFinished j =>
      { m with sprites := m.sprites.filter fun s => s.id ≠ j.id,
               waitingJeeps := m.waitingJeeps ++ [j],
               totalVisitorCount := m.totalVisitorCount + 4 }
  | .refreshVisibles s imp => (updateVisiblesHandler m s imp).1
  | .placeTile c k => { m with tiles := fun c' => if c' = c then k else m.tiles c' }

/-- `Map.generatePlants` / `Map.spawnPoacher`: synchronously the timers grow
by `dt` and reset to `0` on reaching the randomised threshold (`480·f` with
`f ∈ [1, 2.5]`, resp. `720·f` with `f ∈ [1, 2]`); the actual tile placement
and poacher insertion happen inside `async` continuations after an `await`,
hence after the current tick returns. -/
def spawnTimersPhase (m : MapState) (dt plantF poacherF : ℚ) : MapState :=
  let pt := m.plantTimer + dt
  let qt := m.poacherTimer + dt
  { m with plantTimer := if 480 * plantF ≤ pt then 0 else pt,
           poacherTimer := if 720 * poacherF ≤ qt then 0 else qt }

/-- `Map.tick(dt, isOpen)`: ages and prunes the visibility cache, runs every
agent's `act` (whose map effects are the `acts` op list; the ratings emission
for jeeps at the exit reads state only), updates the spawn timers, and — when
the park is open and at least 4 visitors are queued — dispatches the next
waiting jeep with the first four queued visitors along the precomputed path
chosen by the random index `r` (`paths[Math.floor(Math.random() * n)]`).
`tickDispatchPhase` is the dispatch step at the end of `tick`. -/
def tickDispatchPhase (m3 : MapState) (isOpen : Bool) (r : ℕ) : MapState :=
  if isOpen = false then m3
  else if 4 ≤ m3.waitingVisitors.length then
    match m3.waitingJeeps with
    | [] => m3
    | j :: rest =>
        { m3 with
          sprites := m3.sprites
            ++ [{ j with passengers := j.passengers ++ m3.waitingVisitors.take 4,
                         path := m3.paths.getD r [] }],
          waitingJeeps := rest,
          waitingVisitors := m3.waitingVisitors.drop 4 }
  else m3

def tick (m : MapState) (dt : ℚ) (isOpen : Bool) (acts : List MapOp)
    (plantF poacherF : ℚ) (r : ℕ) : MapState :=
  tickDispatchPhase
    (spawnTimersPhase (acts.foldl applyMapOp { m with cache := tickCachePhase dt m.cache })
      dt plantF poacherF)
    isOpen r

/-- A ranger at the origin with view distance `1`, used as a cache-test
requester. -/
def cacheSprite : Sprite where
  id := 7
  kind := SpriteKind.ranger
  species := "safari:ranger"
  pos := (0, 0)
  viewDistance := 1
  buyPrice := 0
  salary := 0
  passengers := []
  path := []
  group := 0

/-- A half-aged cache entry keyed to `cacheSprite`'s position and view
distance. -/
def cacheEntry0 : CacheEntry where
  time := 1/2
  position := (0, 0)
  viewDistance := 1
  visibleTiles := [(0, 0)]
  visibleSprites := []

/-- The small map carrying exactly the one cache entry. -/
def cacheMap : MapState :=
  { smallMap with cache := [cacheEntry0] }

/-- A passengerless jeep waiting for dispatch. -/
def dispatchJeep : Sprite where
  id := 42
  kind := SpriteKind.jeep
  species := "safari:jeep"
  pos := (0, 0)
  viewDistance := 3
  buyPrice := 0
  salary := 0
  passengers := []
  path := []
  group := 0

/-- A map with exactly 4 queued visitors, one waiting jeep and one planned
path. -/
def dispatchMap : MapState :=
  { smallMap with waitingJeeps := [dispatchJeep],
                  waitingVisitors := [0, 1, 2, 3],
                  paths := [[(0, 0), (1, 0)]] }

/-- The tile classes accepted by `Map.neighbors`:
`Road`, `Entrance` or `Exit`. -/
def isRoadKind (k : TileKind) : Prop :=
  k = TileKind.road ∨ k = TileKind.entrance ∨ k = TileKind.exit

instance (k : TileKind) : Decidable (isRoadKind k) :=
  inferInstanceAs (Decidable (k = TileKind.road ∨ k = TileKind.entrance ∨ k = TileKind.exit))

/-- `Map.neighbors`: the in-bounds road-kind tiles 4-adjacent to `c`, in the
source's loop order `(-1,0), (0,-1), (0,1), (1,0)` (the `|dx| ≠ |dy|` test
excludes both diagonals and the cell itself). -/
def neighborsOf (m : MapState) (c : ℤ × ℤ) : List (ℤ × ℤ) :=
  ([(-1, 0), (0, -1), (0, 1), (1, 0)] : List (ℤ × ℤ)).filterMap fun d =>
    if cellInBounds m (c.1 + d.1, c.2 + d.2) ∧ isRoadKind (m.tiles (c.1 + d.1, c.2 + d.2))
    then some (c.1 + d.1, c.2 + d.2)
    else none

/-- `Map.dfs`: collects every simple entrance→exit path.  The JS `visited`
set (mutated by `add` before the loop and `delete` after it) becomes the
immutable `current :: visited` passed to the recursive calls; positions model
the stable tile `position` array references stored in the set.  `fuel`
bounds the recursion depth; `m.width * m.height + 1` suffices because the
visited set grows on every call and holds distinct in-bounds cells. -/
def dfs (m : MapState) : ℕ → ℤ × ℤ → List (ℤ × ℤ) → List (ℤ × ℤ) → List (List (ℤ × ℤ))
  | 0, _, _, _ => []
  | fuel + 1, current, path, visited =>
    if m.tiles current = TileKind.exit then [path ++ [current]]
    else
      (neighborsOf m current).flatMap fun nb =>
        if nb ∈ current :: visited then []
        else dfs m fuel nb (path ++ [current]) (current :: visited)

/-- The path set collected by `Map.planRoads`: DFS from the tile at `(0,0)`
(the entrance cell) with empty path and visited set. -/
def planRoadsPaths (m : MapState) : List (List (ℤ × ℤ)) :=
  dfs m (m.width * m.height + 1) (0, 0) [] []

/-- `Map.planRoads`: resets `_paths`, runs the DFS, and returns whether at
least one path was found. -/
def planRoads (m : MapState) : MapState × Bool :=
  ({ m with paths := planRoadsPaths m }, decide (planRoadsPaths m ≠ []))

/-- A goal's thresholds and required consecutive-day streak. -/
structure Goal where
  balance : ℚ
  herbivores : ℕ
  carnivores : ℕ
  visitors : ℕ
  forDays : ℕ
  deriving DecidableEq, Repr

/-- The `SafariModel` state relevant to opening, purchases and goal
checking. -/
structure ModelState where
  map : MapState
  balance : ℚ
  isOpen : Bool
  time : ℚ
  daysGoalMet : ℕ
  lastGoalCheckDay : ℤ
  goal : Goal

/-- The `SafariModel` `isOpen` setter: opening is gated by `planRoads` (whose
path-set recomputation always takes effect on the map); closing is
unconditional. -/
def setIsOpen (st : ModelState) (value : Bool) : ModelState :=
  if value = true then
    if (planRoads st.map).2 = false then { st with map := (planRoads st.map).1 }
    else { st with map := (planRoads st.map).1, isOpen := value }
  else { st with isOpen := value }

/-- `Map.getRangerSalary`: the summed salaries of all rangers. -/
def getRangerSalary (m : MapState) : ℚ :=
  ((m.sprites.filter fun s => s.kind = SpriteKind.ranger).map Sprite.salary).sum

/-- `Map.getHerbivoreCount`. -/
def getHerbivoreCount (m : MapState) : ℕ :=
  (m.sprites.filter fun s => s.kind = SpriteKind.herbivore).length

/-- `Map.getCarnivoreCount`. -/
def getCarnivoreCount (m : MapState) : ℕ :=
  (m.sprites.filter fun s => s.kind = SpriteKind.carnivore).length

/-- The threshold conjunction of `SafariModel.checkGoalsMet`, evaluated
against the balance after the salary deduction. -/
def goalThresholdsMet (st : ModelState) (balance' : ℚ) : Prop :=
  st.goal.balance ≤ balance'
    ∧ st.goal.herbivores ≤ getHerbivoreCount st.map
    ∧ st.goal.carnivores ≤ getCarnivoreCount st.map
    ∧ st.goal.visitors ≤ st.map.totalVisitorCount

instance (st : ModelState) (b : ℚ) : Decidable (goalThresholdsMet st b) := by
  unfold goalThresholdsMet; infer_instance

/-- `SafariModel.checkGoalsMet`; the returned boolean is whether
`goalMetSignal` was emitted. -/
def checkGoalsMet (st : ModelState) : ModelState × Bool :=
  if 1440 ≤ st.time ∧ st.lastGoalCheckDay ≠ ⌊st.time / 1440⌋ then
    if goalThresholdsMet st (max (st.balance - getRangerSalary st.map) 0) then
      ({ st with balance := max (st.balance - getRangerSalary st.map) 0,
                 daysGoalMet := st.daysGoalMet + 1,
                 lastGoalCheckDay := ⌊st.time / 1440⌋ },
        decide (st.goal.forDays ≤ st.daysGoalMet + 1))
    else
      ({ st with balance := max (st.balance - getRangerSalary st.map) 0,
                 daysGoalMet := 0,
                 lastGoalCheckDay := ⌊st.time / 1440⌋ },
        false)
  else (st, false)

/-- `SafariModel.buy`: deducts the price if affordable; returns the success
flag and the new balance. -/
def buy (balance price : ℚ) : Bool × ℚ :=
  if balance < price then (false, balance) else (true, balance - price)

/-- `Map.addSprite`. -/
def addSprite (m : MapState) (s : Sprite) : MapState :=
  { m with sprites := m.sprites ++ [s] }

/-- `Map.addGroup`: idempotent per group id. -/
def addGroup (m : MapState) (group : ℕ) (id : String) : MapState :=
  if m.groups.any fun g => g.1 = group then m
  else { m with groups := m.groups ++ [(group, id)] }

/-- `SafariModel.buyTile`.  `tile?` is the `createTile` result (kind and buy
price; `none` on an unknown id). -/
def buyTile (st : ModelState) (tile? : Option (TileKind × ℚ)) (x y : ℤ) : ModelState :=
  match tile? with
  | none => st
  | some (k, price) =>
    if k = TileKind.entrance ∨ k = TileKind.exit then st
    else if k = TileKind.road ∧ st.isOpen = true then st
    else if st.map.tiles (x, y) = TileKind.entrance ∨ st.map.tiles (x, y) = TileKind.exit then st
    else if st.map.tiles (x, y) = TileKind.road ∧ st.isOpen = true then st
    else if st.map.tiles (x, y) ≠ k ∧ (buy st.balance price).1 = true then
      { st with balance := (buy st.balance price).2,
                map := { st.map with
                         tiles := fun c => if c = (x, y) then k else st.map.tiles c } }
    else st

/-- Shared body of `SafariModel.buyHerbivore` / `buyCarnivore` (their source
bodies are identical up to the factory used).  `animal?` is the factory
result; `freshGroup` is the fresh random group id drawn when no visible
same-species animal exists. -/
def buyAnimal (st : ModelState) (animal? : Option Sprite) (freshGroup : ℕ) : ModelState :=
  match animal? with
  | none => st
  | some a =>
    if (buy st.balance a.buyPrice).1 = true then
      { st with
        balance := (buy st.balance a.buyPrice).2,
        map :=
          addSprite
            (addGroup st.map
              (match (getVisibleSprites st.map a).find? (fun s =>
                  (s.kind = SpriteKind.herbivore ∨ s.kind = SpriteKind.carnivore)
                    ∧ s.species = a.species) with
                | some s => s.group
                | none => freshGroup)
              a.species)
            { a with
              group :=
                match (getVisibleSprites st.map a).find? (fun s =>
                    (s.kind = SpriteKind.herbivore ∨ s.kind = SpriteKind.carnivore)
                      ∧ s.species = a.species) with
                  | some s => s.group
                  | none => freshGroup } }
    else st

/-- `SafariModel.buyHerbivore`. -/
def buyHerbivore (st : ModelState) (animal? : Option Sprite) (freshGroup : ℕ) : ModelState :=
  buyAnimal st animal? freshGroup

/-- `SafariModel.buyCarnivore`. -/
def buyCarnivore (st : ModelState) (animal? : Option Sprite) (freshGroup : ℕ) : ModelState :=
  buyAnimal st animal? freshGroup

/-- `SafariModel.buyJeep`: on success the jeep joins the waiting backlog. -/
def buyJeep (st : ModelState) (jeep : Sprite) : ModelState :=
  if (buy st.balance jeep.buyPrice).1 = true then
    { st with balance := (buy st.balance jeep.buyPrice).2,
              map := { st.map with waitingJeeps := st.map.waitingJeeps ++ [jeep] } }
  else st

/-- `SafariModel.buyRanger`: on success the ranger joins the roster. -/
def buyRanger (st : ModelState) (ranger : Sprite) : ModelState :=
  if (buy st.balance ranger.buyPrice).1 = true then
    { st with balance := (buy st.balance ranger.buyPrice).2,
              map := addSprite st.map ranger }
  else st

/-- A model state used as a concrete economy test: one day has elapsed and
has not yet been checked. -/
def econState : ModelState where
  map := smallMap
  balance := 10000
  isOpen := false
  time := 1500
  daysGoalMet := 0
  lastGoalCheckDay := -1
  goal := { balance := 0, herbivores := 0, carnivores := 0, visitors := 0, forDays := 3 }

/-- A sprite priced at 100 coins. -/
def pricedSprite : Sprite where
  id := 9
  kind := SpriteKind.herbivore
  species := "safari:zebra"
  pos := (1, 1)
  viewDistance := 2
  buyPrice := 100
  salary := 0
  passengers := []
  path := []
  group := 0

/-- A model state with only 10 coins. -/
def poorState : ModelState where
  map := smallMap
  balance := 10
  isOpen := false
  time := 0
  daysGoalMet := 0
  lastGoalCheckDay := -1
  goal := { balance := 0, herbivores := 0, carnivores := 0, visitors := 0, forDays := 3 }

/-- The roster mutations an `act` callback can trigger mid-iteration:
`Map.addSprite` pushes onto the array currently referenced by `_sprites`;
`Map.removeSprite` *reassigns* `_sprites` to a freshly filtered array,
leaving the old array object untouched.  Agents are identified by their
unique registration numbers. -/
inductive RosterOp where
  | push (a : ℕ)
  | removeById (a : ℕ)

/-- The array objects during `this._sprites.forEach(sprite => sprite.act(dt))`:
`iterArr` is the array object captured by `forEach`, `cur` the array
currently referenced by `this._sprites`, and `sameObj` whether the two are
still the same object. -/
structure IterState where
  iterArr : List ℕ
  cur : List ℕ
  sameObj : Bool

/-- Effect of one roster mutation on the two array references. -/
def applyRosterOp (st : IterState) : RosterOp → IterState
  | .push a =>
      if st.sameObj then ⟨st.iterArr ++ [a], st.cur ++ [a], true⟩
      else ⟨st.iterArr, st.cur ++ [a], false⟩
  | .removeById a => ⟨st.iterArr, st.cur.filter (· ≠ a), false⟩

/-- ECMA-262 `Array.prototype.forEach`: the range of processed indices is
fixed before the first callback; at step `k` the *current* value of
`iterArr[k]` is visited (and skipped when the slot is absent — recorded as
`none` in the trace), then the callback's roster effects are applied.
`effects k st` is the arbitrary list of mutations agent `k`'s `act` performs
given the current state. -/
def runForEach (effects : ℕ → IterState → List RosterOp) :
    ℕ → ℕ → IterState → List (Option ℕ) × IterState
  | _, 0, st => ([], st)
  | k, n + 1, st =>
      match st.iterArr.get? k with
      | some a =>
          let st' := (effects k st).foldl applyRosterOp st
          let res := runForEach effects (k + 1) n st'
          (some a :: res.1, res.2)
      | none =>
          let res := runForEach effects (k + 1) n st
          (none :: res.1, res.2)

/-- The act phase of `Map.tick`: `forEach` over the roster as it was when
the phase started, with both references initially the same object. -/
def tickActPhase (sprites : List ℕ) (effects : ℕ → IterState → List RosterOp) :
    List (Option ℕ) × IterState :=
  runForEach effects 0 sprites.length ⟨sprites, sprites, true⟩

/-- Act effects for the witness: the first visited agent removes agent `2`
and spawns agent `9`. -/
def witnessEffects : ℕ → IterState → List RosterOp :=
  fun k _ => if k = 0 then [RosterOp.removeById 2, RosterOp.push 9] else []

/-- A tile as the movement and animal-behaviour code sees it: position,
obstacle flag (from the tile's JSON data), water/edible flags and kind id. -/
structure TileR where
  pos : ℝ × ℝ
  isObstacle : Bool
  isWater : Bool
  isEdible : Bool
  kind : TileKind

/-- The `Sprite` fields used by the movement primitive.  `lastTile` stores
the position of the tile object last stood on (tile positions identify tile
objects). -/
structure SpriteR where
  pos : ℝ × ℝ
  pathTo : Option (ℝ × ℝ)
  vel : ℝ × ℝ
  speed : ℝ
  visibleTiles : List TileR
  lastTile : Option (ℝ × ℝ)

/-- `NeedStatus`: the need the animal is currently pursuing. -/
inductive NeedStatus where
  | noNeed
  | drink
  | food
  deriving DecidableEq, Repr

/-- A sprite as visible to an animal: identity, position, whether it is an
`Animal` (resp. a `Herbivore`), its group and its captured flag — the fields
the behaviour code inspects on `_visibleSprites`. -/
structure VisSpriteR where
  id : ℕ
  pos : ℝ × ℝ
  isAnimal : Bool
  isHerbivore : Bool
  group : ℕ
  isBeingCaptured : Bool

/-- The state of an `Animal`: the inherited sprite fields plus age, needs,
flags, memory sets (modelled as duplicate-free lists in insertion order, the
JS `Set`/`Map` of stable position references) and the carnivore's
herbivore-position map. -/
structure AnimalR where
  s : SpriteR
  viewDistance : ℝ
  restingTime : ℝ
  age : ℝ
  food : ℝ
  hydration : ℝ
  isCaptured : Bool
  isWandering : Bool
  isOnHill : Bool
  targetNeed : NeedStatus
  group : ℕ
  visibleSprites : List VisSpriteR
  seenFood : List (ℝ × ℝ)
  seenWater : List (ℝ × ℝ)
  seenHerbivores : List (ℕ × (ℝ × ℝ))

/-- One `act` call's `Math.random()` draws: the two decay factors (already
shifted into their documented ranges `[0.85, 1.15]` resp. `[0.9, 1.1]`), the
raw rest draw, the raw random-tile index draws, and the ten raw
(radius, angle) attempt draws of the group-wander targeting. -/
structure ActRand where
  hydFactor : ℝ
  foodFactor : ℝ
  restRand : ℝ
  tileRand : ℝ
  fallbackRand : ℝ
  attempts : List (ℝ × ℝ)

/-- The per-species overrides left abstract in `Animal`
(`updateMemory`, `fillFoodLevel`). -/
structure AnimalOverrides where
  updateMemory : AnimalR → AnimalR
  fillFoodLevel : AnimalR → AnimalR

/-- `Sprite.updateState`: recomputes `_isOnHill` from the visible tiles. -/
noncomputable def updateState (a : AnimalR) : AnimalR :=
  { a with isOnHill := a.s.visibleTiles.any fun t =>
      decide (t.pos.1 = (⌊a.s.pos.1⌋ : ℝ) ∧ t.pos.2 = (⌊a.s.pos.2⌋ : ℝ)
        ∧ t.kind = TileKind.hill) }

/-- `Animal.interpolateRange`. -/
noncomputable def interpolateRange (a b t : ℝ) : ℝ :=
  a + (b - a) * t

/-- `Animal.updateHungerAndThirst`: age-interpolated, randomness-modulated
decay of hydration and food, both floored at `0`. -/
noncomputable def updateHungerAndThirst (a : AnimalR) (dt : ℝ) (o : ActRand) : AnimalR :=
  let normalizedAge := min (a.age / 30) 1
  let hydrationDuration := interpolateRange 180 30 normalizedAge
  let hydrationRate := 3 / (hydrationDuration * o.hydFactor)
  let foodDuration := interpolateRange 200 60 (normalizedAge * 0.7)
  let foodRate := 2 / (foodDuration * o.foodFactor)
  { a with hydration := max 0 (a.hydration - hydrationRate * dt),
           food := max 0 (a.food - foodRate * dt) }

/-- `Animal.isResting(dt)`: counts a positive resting timer down (floored at
`0`) and reports whether the animal was resting. -/
noncomputable def isRestingStep (a : AnimalR) (dt : ℝ) : AnimalR × Bool :=
  if 0 < a.restingTime then ({ a with restingTime := max 0 (a.restingTime - dt) }, true)
  else (a, false)

/-- `Animal.findClosest`: first strict minimiser of the squared distance, in
set-iteration (insertion) order; JS starts from `bestDist = Infinity`. -/
noncomputable def findClosest (p : ℝ × ℝ) (positions : List (ℝ × ℝ)) : Option (ℝ × ℝ) :=
  (positions.foldl (fun acc q =>
      let d := (q.1 - p.1) * (q.1 - p.1) + (q.2 - p.2) * (q.2 - p.2)
      match acc with
      | none => some (q, d)
      | some (_, bd) => if d < bd then some (q, d) else acc)
    none).map Prod.fst

/-- `Animal.chooseNeedTarget`: mutates `_targetNeed` and returns the chosen
need position; thirst is considered first unless food is already being
pursued, hunger second (also as a fallback when no water is remembered). -/
noncomputable def chooseNeedTarget (a : AnimalR) : AnimalR × Option (ℝ × ℝ) :=
  let step1 : AnimalR × Option (ℝ × ℝ) :=
    if a.hydration < 80 ∧ a.targetNeed ≠ NeedStatus.food then
      ({ a with targetNeed := NeedStatus.drink }, findClosest a.s.pos a.seenWater)
    else (a, none)
  if (step1.1.food < 85 ∧ step1.1.targetNeed ≠ NeedStatus.drink)
      ∨ (step1.1.food < 85 ∧ step1.2 = none) then
    ({ step1.1 with targetNeed := NeedStatus.food },
      findClosest step1.1.s.pos step1.1.seenFood)
  else step1

/-- The bounding box of a tile list (`Sprite.computeBounds`).  `Math.min()` /
`Math.max()` of an empty spread are `±Infinity` in JS; the degenerate zero
box stands in for the empty case, which no caller path in the theorems
reaches with a movement step. -/
structure BoundsR where
  minX : ℝ
  minY : ℝ
  maxX : ℝ
  maxY : ℝ

noncomputable def computeBounds : List TileR → BoundsR
  | [] => ⟨0, 0, 0, 0⟩
  | t :: rest =>
      ⟨rest.foldl (fun acc u => min acc u.pos.1) t.pos.1,
       rest.foldl (fun acc u => min acc u.pos.2) t.pos.2,
       rest.foldl (fun acc u => max acc u.pos.1) t.pos.1,
       rest.foldl (fun acc u => max acc u.pos.2) t.pos.2⟩

/-- 4-directional adjacency of grid cells, as the specification describes
(`no diagonal steps`). -/
def adjacent4 (a b : ℤ × ℤ) : Prop :=
  (a.1 = b.1 ∧ (a.2 - b.2 = 1 ∨ b.2 - a.2 = 1))
    ∨ (a.2 = b.2 ∧ (a.1 - b.1 = 1 ∨ b.1 - a.1 = 1))

instance (a b : ℤ × ℤ) : Decidable (adjacent4 a b) :=
  inferInstanceAs (Decidable ((a.1 = b.1 ∧ (a.2 - b.2 = 1 ∨ b.2 - a.2 = 1))
    ∨ (a.2 = b.2 ∧ (a.1 - b.1 = 1 ∨ b.1 - a.1 = 1))))

/-- Stated from the specification's words, for comparison with `planRoads`:
a simple path (no repeated cell) from the entrance cell `(0,0)` to an exit
cell, through in-bounds road-kind cells, using 4-directional adjacency
only. -/
def ValidRoadPath (m : MapState) (p : List (ℤ × ℤ)) : Prop :=
  p.head? = some (0, 0)
    ∧ (∃ e, p.getLast? = some e ∧ m.tiles e = TileKind.exit)
    ∧ p.Chain' adjacent4
    ∧ p.Nodup
    ∧ ∀ c ∈ p, cellInBounds m c ∧ isRoadKind (m.tiles c)

/-- A 2×1 map with the entrance at `(0,0)` and the exit at `(1,0)`: the
one-step road path exists. -/
def roadMap : MapState where
  width := 2
  height := 1
  tiles := fun c => if c = (0, 0) then TileKind.entrance
    else if c = (1, 0) then TileKind.exit else TileKind.other "safari:sand"
  sprites := []
  cache := []
  waitingJeeps := []
  waitingVisitors := []
  paths := []
  totalVisitorCount := 0
  groups := []
  plantTimer := 0
  poacherTimer := 0

/-- A 1×1 map holding only the entrance: no exit is reachable. -/
def noRoadMap : MapState where
  width := 1
  height := 1
  tiles := fun c => if c = (0, 0) then TileKind.entrance
    else TileKind.other "safari:sand"
  sprites := []
  cache := []
  waitingJeeps := []
  waitingVisitors := []
  paths := []
  totalVisitorCount := 0
  groups := []
  plantTimer := 0
  poacherTimer := 0

/-- A model state over the exit-less map, currently closed. -/
def noRoadState : ModelState where
  map := noRoadMap
  balance := 0
  isOpen := false
  time := 0
  daysGoalMet := 0
  lastGoalCheckDay := -1
  goal := { balance := 0, herbivores := 0, carnivores := 0, visitors := 0, forDays := 3 }

/-! ## Theorems -/

/-- Membership characterisation for the scanned window. -/
theorem mem_scanCells {cellX cellY : ℤ} {vd : ℚ} {c : ℤ × ℤ} :
    c ∈ scanCells cellX cellY vd ↔
      ∃ i < scanSteps vd, ∃ j < scanSteps vd,
        (cellX + ⌊(i : ℚ) - vd⌋, cellY + ⌊(j : ℚ) - vd⌋) = c := by
  constructor
  · intro h
    obtain ⟨i, hi, hin⟩ := List.mem_flatMap.mp h
    obtain ⟨j, hj, heq⟩ := List.mem_map.mp hin
    exact ⟨i, List.mem_range.mp hi, j, List.mem_range.mp hj, heq⟩
  · rintro ⟨i, hi, j, hj, heq⟩
    exact List.mem_flatMap.mpr ⟨i, List.mem_range.mpr hi,
      List.mem_map.mpr ⟨j, List.mem_range.mpr hj, heq⟩⟩

/-- C3 counterexample: for the fractional effective view distance `3/2`
(odd base view distance standing on a hill), `getVisibleTiles` returns the
in-bounds tile `(0,0)`, whose cell does *not* lie in the axis-aligned square
of half-width `viewDistance` centered on the sprite's truncated position —
the scan window `⌊cell − vd⌋ …` overshoots the square by one cell on the low
side. -/
theorem c3_counterexample :
    ((0, 0) : ℤ × ℤ) ∈ getVisibleTiles smallMap hillSprite
      ∧ cellInBounds smallMap ((0, 0) : ℤ × ℤ)
      ∧ ¬ inViewSquare ⌊hillSprite.pos.1⌋ ⌊hillSprite.pos.2⌋ hillSprite.viewDistance
          (((0 : ℤ) : ℚ), ((0 : ℤ) : ℚ)) := by
  have hvd : hillSprite.viewDistance = 3/2 := rfl
  have hpos1 : (⌊hillSprite.pos.1⌋ : ℤ) = 2 := by
    rw [show hillSprite.pos.1 = (2 : ℚ) from rfl]; norm_num
  have hpos2 : (⌊hillSprite.pos.2⌋ : ℤ) = 2 := by
    rw [show hillSprite.pos.2 = (2 : ℚ) from rfl]; norm_num
  have hsteps : scanSteps hillSprite.viewDistance = 4 := by
    rw [hvd, scanSteps, if_pos (by norm_num), show ⌊2 * (3/2 : ℚ)⌋ = 3 by norm_num]
    decide
  refine ⟨?_, by decide, ?_⟩
  · rw [getVisibleTiles, List.mem_filter]
    refine ⟨mem_scanCells.mpr ⟨0, ?_, 0, ?_, ?_⟩, by decide⟩
    · rw [hsteps]; norm_num
    · rw [hsteps]; norm_num
    · rw [hpos1, hpos2, hvd, show ⌊((0 : ℕ) : ℚ) - 3/2⌋ = -2 by norm_num]
      decide
  · rw [hpos1, hpos2, hvd, inViewSquare]
    push_cast
    norm_num

/-- C3 (amended): `getVisibleSprites a` never contains `a` itself, and a
sprite `b` is returned exactly when it is on the roster, differs from `a`
(by registration number, the model of object identity) and its position lies
in the Chebyshev box of half-width `a.viewDistance` around `a`'s floored
position — for every rational view distance.  `getVisibleTiles` returns
exactly the in-bounds cells of that box whenever the effective view distance
is a natural number; the fractional (hill) case is excluded by the
counterexample. -/
theorem c3_visibility_box (m : MapState) (a b : Sprite) :
    (a ∉ getVisibleSprites m a)
    ∧ (b ∈ getVisibleSprites m a ↔
        b ∈ m.sprites ∧ b.id ≠ a.id
          ∧ inViewSquare ⌊a.pos.1⌋ ⌊a.pos.2⌋ a.viewDistance b.pos)
    ∧ (∀ n : ℕ, a.viewDistance = (n : ℚ) →
        ∀ c : ℤ × ℤ, c ∈ getVisibleTiles m a ↔
          cellInBounds m c
            ∧ inViewSquare ⌊a.pos.1⌋ ⌊a.pos.2⌋ a.viewDistance ((c.1 : ℚ), (c.2 : ℚ))) := by
  refine ⟨?_, ?_, ?_⟩
  · simp [getVisibleSprites, List.mem_filter]
  · simp only [getVisibleSprites, List.mem_filter, inViewSquare, decide_eq_true_eq]
  · intro n hn c
    obtain ⟨x, y⟩ := c
    have hsteps : scanSteps ((n : ℚ)) = 2 * n + 1 := by
      rw [scanSteps, if_pos (by positivity),
        show (2 : ℚ) * (n : ℚ) = ((2 * n : ℕ) : ℚ) by push_cast; ring,
        Int.floor_natCast, Int.toNat_natCast]
    have hoff : ∀ i : ℕ, ⌊(i : ℚ) - (n : ℚ)⌋ = (i : ℤ) - (n : ℤ) := by
      intro i
      rw [show (i : ℚ) - (n : ℚ) = (((i : ℤ) - (n : ℤ) : ℤ) : ℚ) by push_cast; ring,
        Int.floor_intCast]
    rw [getVisibleTiles, List.mem_filter, hn]
    simp only [inViewSquare, cellInBounds, decide_eq_true_eq]
    constructor
    · rintro ⟨hmem, hb⟩
      obtain ⟨i, hi, j, hj, heq⟩ := mem_scanCells.mp hmem
      rw [hsteps] at hi hj
      rw [hoff i, hoff j, Prod.mk.injEq] at heq
      obtain ⟨hx, hy⟩ := heq
      refine ⟨hb, ?_, ?_, ?_, ?_⟩
      · exact_mod_cast (by omega : ⌊a.pos.1⌋ - (n : ℤ) ≤ x)
      · exact_mod_cast (by omega : x ≤ ⌊a.pos.1⌋ + (n : ℤ))
      · exact_mod_cast (by omega : ⌊a.pos.2⌋ - (n : ℤ) ≤ y)
      · exact_mod_cast (by omega : y ≤ ⌊a.pos.2⌋ + (n : ℤ))
    · rintro ⟨hb, q1, q2, q3, q4⟩
      have z1 : ⌊a.pos.1⌋ - (n : ℤ) ≤ x := by exact_mod_cast q1
      have z2 : x ≤ ⌊a.pos.1⌋ + (n : ℤ) := by exact_mod_cast q2
      have z3 : ⌊a.pos.2⌋ - (n : ℤ) ≤ y := by exact_mod_cast q3
      have z4 : y ≤ ⌊a.pos.2⌋ + (n : ℤ) := by exact_mod_cast q4
      refine ⟨mem_scanCells.mpr ⟨(x - ⌊a.pos.1⌋ + n).toNat, ?_, (y - ⌊a.pos.2⌋ + n).toNat,
        ?_, ?_⟩, hb⟩
      · rw [hsteps]; omega
      · rw [hsteps]; omega
      · rw [hoff, hoff, Prod.mk.injEq]
        constructor <;> omega

/-- C3 witness: the amended statement applied to the concrete `smallMap` and
the sprite with integral view distance `1`. -/
theorem c3_visibility_box_witness :
    plainSprite.viewDistance = ((1 : ℕ) : ℚ)
      ∧ (((2, 3) : ℤ × ℤ) ∈ getVisibleTiles smallMap plainSprite ↔
          cellInBounds smallMap ((2, 3) : ℤ × ℤ)
            ∧ inViewSquare ⌊plainSprite.pos.1⌋ ⌊plainSprite.pos.2⌋ plainSprite.viewDistance
                (((2 : ℤ) : ℚ), ((3 : ℤ) : ℚ))) :=
  ⟨by decide, (c3_visibility_box smallMap plainSprite plainSprite).2.2 1 (by decide) (2, 3)⟩

/-- Decomposition of a successful cache lookup: the list splits around the
first matching entry; `touchFirst` resets exactly that entry's age and
`eraseP` removes exactly that entry. -/
theorem find?_cache_decomp (s : Sprite) (l : List CacheEntry) (e : CacheEntry)
    (h : l.find? (fun x => keyMatches s x) = some e) :
    ∃ pre post, l = pre ++ e :: post ∧ (∀ x ∈ pre, ¬ keyMatches s x) ∧ keyMatches s e
      ∧ touchFirst (keyMatches s) l = pre ++ { e with time := 0 } :: post
      ∧ l.eraseP (fun x => keyMatches s x) = pre ++ post := by
  induction l with
  | nil => simp at h
  | cons a rest ih =>
    by_cases hpa : keyMatches s a
    · have ha : a = e := by
        rw [List.find?_cons_of_pos _ (by simpa using hpa)] at h
        exact Option.some.inj h
      subst ha
      exact ⟨[], rest, rfl, by simp, hpa, by simp [touchFirst, hpa],
        by simp [List.eraseP_cons_of_pos, hpa]⟩
    · rw [List.find?_cons_of_neg _ (by simpa using hpa)] at h
      obtain ⟨pre, post, hsplit, hpre, hpe, htf, her⟩ := ih h
      refine ⟨a :: pre, post, by rw [hsplit]; rfl, ?_, hpe,
        by simp [touchFirst, hpa, htf],
        by simp [List.eraseP_cons_of_neg, hpa, her]⟩
      intro x hx
      rcases List.mem_cons.mp hx with rfl | hx'
      · exact hpa
      · exact hpre x hx'

/-- The visibility-refresh handler touches only the cache: roster, queues and
paths are untouched. -/
theorem updateVisiblesHandler_preserves (m : MapState) (s : Sprite) (imp : Bool) :
    (updateVisiblesHandler m s imp).1.sprites = m.sprites
      ∧ (updateVisiblesHandler m s imp).1.waitingJeeps = m.waitingJeeps
      ∧ (updateVisiblesHandler m s imp).1.waitingVisitors = m.waitingVisitors
      ∧ (updateVisiblesHandler m s imp).1.paths = m.paths
      ∧ (updateVisiblesHandler m s imp).1.tiles = m.tiles
      ∧ (updateVisiblesHandler m s imp).1.width = m.width
      ∧ (updateVisiblesHandler m s imp).1.height = m.height := by
  unfold updateVisiblesHandler
  split <;> (try split) <;> simp

/-- Every act-phase effect leaves the visitor queue and the planned paths
unchanged and can only append to the waiting-jeep queue. -/
theorem foldl_applyMapOp_queues (acts : List MapOp) (m : MapState) :
    ∃ extra, (acts.foldl applyMapOp m).waitingJeeps = m.waitingJeeps ++ extra
      ∧ (acts.foldl applyMapOp m).waitingVisitors = m.waitingVisitors
      ∧ (acts.foldl applyMapOp m).paths = m.paths := by
  induction acts generalizing m with
  | nil => exact ⟨[], by simp, rfl, rfl⟩
  | cons op rest ih =>
    obtain ⟨extra, h1, h2, h3⟩ := ih (applyMapOp m op)
    rw [List.foldl_cons]
    cases op with
    | addSprite s => exact ⟨extra, by simpa [applyMapOp] using h1,
        by simpa [applyMapOp] using h2, by simpa [applyMapOp] using h3⟩
    | removeSprite i => exact ⟨extra, by simpa [applyMapOp] using h1,
        by simpa [applyMapOp] using h2, by simpa [applyMapOp] using h3⟩
    | tourFinished j =>
        refine ⟨[j] ++ extra, ?_, by simpa [applyMapOp] using h2,
          by simpa [applyMapOp] using h3⟩
        rw [h1]
        simp [applyMapOp]
    | refreshVisibles s imp =>
        obtain ⟨_, hj, hv, hp, _, _, _⟩ := updateVisiblesHandler_preserves m s imp
        exact ⟨extra, by rw [h1]; simp [applyMapOp, hj],
          by rw [h2]; simp [applyMapOp, hv], by rw [h3]; simp [applyMapOp, hp]⟩
    | placeTile c k => exact ⟨extra, by simpa [applyMapOp] using h1,
        by simpa [applyMapOp] using h2, by simpa [applyMapOp] using h3⟩

/-- C2: every `Map.tick(dt, isOpen)` first adds `dt` to each cache entry's
age and evicts every entry whose age has reached `1` (an entry survives
exactly when its new age is still below `1`); a non-important refresh whose
key matches an existing entry delivers that entry's cached tile and sprite
lists and resets only that entry's age to `0`; an important request
recomputes the visible tiles and sprites and replaces any existing entry for
that key by the fresh one. -/
theorem c2_visibility_cache :
    (∀ (dt : ℚ) (c : List CacheEntry) (e' : CacheEntry),
        e' ∈ tickCachePhase dt c ↔
          ∃ e ∈ c, e.time + dt < 1 ∧ e' = { e with time := e.time + dt })
    ∧ (∀ (m : MapState) (dt : ℚ) (isOpen : Bool) (acts : List MapOp) (pF qF : ℚ) (r : ℕ),
        (∀ op ∈ acts, ∀ s imp, op ≠ MapOp.refreshVisibles s imp) →
          (tick m dt isOpen acts pF qF r).cache = tickCachePhase dt m.cache)
    ∧ (∀ (m : MapState) (s : Sprite) (e : CacheEntry),
        m.cache.find? (fun x => keyMatches s x) = some e →
          (updateVisiblesHandler m s false).2 = (e.visibleTiles, e.visibleSprites)
          ∧ ∃ pre post, m.cache = pre ++ e :: post ∧ (∀ x ∈ pre, ¬ keyMatches s x)
              ∧ (updateVisiblesHandler m s false).1.cache
                  = pre ++ { e with time := 0 } :: post)
    ∧ (∀ (m : MapState) (s : Sprite),
        (updateVisiblesHandler m s true).2 = (getVisibleTiles m s, getVisibleSprites m s)
        ∧ (updateVisiblesHandler m s true).1.cache
            = (m.cache.eraseP fun x => keyMatches s x) ++ [freshEntry m s]) := by
  refine ⟨?_, ?_, ?_, ?_⟩
  · intro dt c e'
    unfold tickCachePhase
    rw [List.mem_filter]
    constructor
    · rintro ⟨hmem, hlt⟩
      obtain ⟨e, he, rfl⟩ := List.mem_map.mp hmem
      exact ⟨e, he, by simpa using hlt, rfl⟩
    · rintro ⟨e, he, hlt, rfl⟩
      exact ⟨List.mem_map.mpr ⟨e, he, rfl⟩, by simpa using hlt⟩
  · intro m dt isOpen acts pF qF r hacts
    have hfold : ∀ (l : List MapOp) (mm : MapState),
        (∀ op ∈ l, ∀ s imp, op ≠ MapOp.refreshVisibles s imp) →
        (l.foldl applyMapOp mm).cache = mm.cache := by
      intro l
      induction l with
      | nil => intro mm _; rfl
      | cons op rest ih =>
        intro mm hl
        rw [List.foldl_cons, ih _ (fun o ho => hl o (List.mem_cons_of_mem _ ho))]
        have hop := hl op (List.mem_cons_self _ _)
        cases op with
        | refreshVisibles s imp => exact absurd rfl (hop s imp)
        | addSprite s => rfl
        | removeSprite i => rfl
        | tourFinished j => rfl
        | placeTile c k => rfl
    have hbase : (acts.foldl applyMapOp { m with cache := tickCachePhase dt m.cache }).cache
        = tickCachePhase dt m.cache := hfold acts _ hacts
    have hd : ∀ (m3 : MapState) (o : Bool) (rr : ℕ),
        (tickDispatchPhase m3 o rr).cache = m3.cache := by
      intro m3 o rr
      unfold tickDispatchPhase
      split
      · rfl
      split
      · split <;> rfl
      · rfl
    unfold tick
    rw [hd]
    exact hbase
  · intro m s e h
    obtain ⟨pre, post, hsplit, hpre, hpe, htf, her⟩ := find?_cache_decomp s m.cache e h
    unfold updateVisiblesHandler
    rw [h]
    exact ⟨rfl, pre, post, hsplit, hpre, by simpa using htf⟩
  · intro m s
    unfold updateVisiblesHandler
    cases hf : m.cache.find? (fun x => keyMatches s x) with
    | some e =>
        obtain ⟨pre, post, hsplit, hpre, hpe, htf, her⟩ := find?_cache_decomp s m.cache e hf
        simp
    | none =>
        have : m.cache.eraseP (fun x => keyMatches s x) = m.cache := by
          apply List.eraseP_of_forall_not
          intro a ha
          have := List.find?_eq_none.mp hf a ha
          simpa using this
        simp [this]

/-- C2 witness: the non-important-hit clause applied to the concrete
one-entry cache. -/
theorem c2_visibility_cache_witness :
    cacheMap.cache.find? (fun x => keyMatches cacheSprite x) = some cacheEntry0
      ∧ ((updateVisiblesHandler cacheMap cacheSprite false).2
            = (cacheEntry0.visibleTiles, cacheEntry0.visibleSprites)
          ∧ ∃ pre post, cacheMap.cache = pre ++ cacheEntry0 :: post
              ∧ (∀ x ∈ pre, ¬ keyMatches cacheSprite x)
              ∧ (updateVisiblesHandler cacheMap cacheSprite false).1.cache
                  = pre ++ { cacheEntry0 with time := 0 } :: post) := by
  have hkey : keyMatches cacheSprite cacheEntry0 := by
    constructor
    · show cacheEntry0.position = (⌊cacheSprite.pos.1⌋, ⌊cacheSprite.pos.2⌋)
      rw [show cacheSprite.pos.1 = (0 : ℚ) from rfl, show cacheSprite.pos.2 = (0 : ℚ) from rfl]
      norm_num
      rfl
    · rfl
  have hfind : cacheMap.cache.find? (fun x => keyMatches cacheSprite x) = some cacheEntry0 := by
    rw [show cacheMap.cache = [cacheEntry0] from rfl]
    exact List.find?_cons_of_pos _ (by simpa using hkey)
  exact ⟨hfind, c2_visibility_cache.2.2.1 cacheMap cacheSprite cacheEntry0 hfind⟩

/-- C7: if `tick(dt, true)` runs while at least 4 visitors are queued and a
jeep `j` heads the waiting queue, then — whatever the agents' act effects do
— the dispatched jeep is `j`: it leaves the waiting queue (which retains only
the act-phase re-queues behind the old tail), is appended to the active
roster carrying its passengers plus exactly the first four queued visitors,
and is assigned the precomputed path selected by the random index `r`. -/
theorem c7_jeep_dispatch (m : MapState) (dt : ℚ) (acts : List MapOp) (pF qF : ℚ)
    (r : ℕ) (j : Sprite) (rest : List Sprite)
    (hj : m.waitingJeeps = j :: rest)
    (hv : 4 ≤ m.waitingVisitors.length)
    (hr : r < m.paths.length) :
    ∃ extra,
      (tick m dt true acts pF qF r).waitingJeeps = rest ++ extra
      ∧ (tick m dt true acts pF qF r).waitingVisitors = m.waitingVisitors.drop 4
      ∧ (tick m dt true acts pF qF r).sprites.getLast?
          = some { j with passengers := j.passengers ++ m.waitingVisitors.take 4,
                          path := m.paths.getD r [] }
      ∧ (j.passengers ++ m.waitingVisitors.take 4).length = j.passengers.length + 4
      ∧ m.paths.getD r [] ∈ m.paths := by
  obtain ⟨extra, hwj, hwv, hp⟩ :=
    foldl_applyMapOp_queues acts { m with cache := tickCachePhase dt m.cache }
  refine ⟨extra, ?_⟩
  unfold tick
  set m3 := spawnTimersPhase
    (acts.foldl applyMapOp { m with cache := tickCachePhase dt m.cache }) dt pF qF with hm3
  have hwj3 : m3.waitingJeeps = j :: (rest ++ extra) := by
    show (acts.foldl applyMapOp { m with cache := tickCachePhase dt m.cache }).waitingJeeps = _
    rw [hwj]
    show m.waitingJeeps ++ extra = _
    rw [hj]
    rfl
  have hwv3 : m3.waitingVisitors = m.waitingVisitors := by
    show (acts.foldl applyMapOp { m with cache := tickCachePhase dt m.cache }).waitingVisitors = _
    rw [hwv]
  have hp3 : m3.paths = m.paths := by
    show (acts.foldl applyMapOp { m with cache := tickCachePhase dt m.cache }).paths = _
    rw [hp]
  unfold tickDispatchPhase
  rw [if_neg (by simp)]
  rw [if_pos (by rw [hwv3]; exact hv)]
  rw [hwj3]
  dsimp only
  rw [hwv3, hp3]
  refine ⟨rfl, rfl, List.getLast?_concat _, ?_, ?_⟩
  · rw [List.length_append, List.length_take, min_eq_left hv]
  · rw [List.getD_eq_getElem _ _ hr]
    exact List.getElem_mem _

/-- C7 witness: a map with exactly 4 queued visitors and one waiting jeep,
ticked with `tick(0, true)` and no act effects; both queues empty out. -/
theorem c7_jeep_dispatch_witness :
    dispatchMap.waitingJeeps = dispatchJeep :: []
      ∧ 4 ≤ dispatchMap.waitingVisitors.length
      ∧ 0 < dispatchMap.paths.length
      ∧ (∃ extra,
          (tick dispatchMap 0 true [] 1 1 0).waitingJeeps = [] ++ extra
          ∧ (tick dispatchMap 0 true [] 1 1 0).waitingVisitors
              = dispatchMap.waitingVisitors.drop 4
          ∧ (tick dispatchMap 0 true [] 1 1 0).sprites.getLast?
              = some { dispatchJeep with
                        passengers := dispatchJeep.passengers
                          ++ dispatchMap.waitingVisitors.take 4,
                        path := dispatchMap.paths.getD 0 [] }
          ∧ (dispatchJeep.passengers ++ dispatchMap.waitingVisitors.take 4).length
              = dispatchJeep.passengers.length + 4
          ∧ dispatchMap.paths.getD 0 [] ∈ dispatchMap.paths)
      ∧ (tick dispatchMap 0 true [] 1 1 0).waitingJeeps.length = 0
      ∧ (tick dispatchMap 0 true [] 1 1 0).waitingVisitors.length = 0 := by
  refine ⟨rfl, by decide, by decide,
    c7_jeep_dispatch dispatchMap 0 [] 1 1 0 dispatchJeep [] rfl (by decide) (by decide),
    ?_, ?_⟩
  · rfl
  · rfl

/-- C8: the daily goal check runs at most once per distinct day boundary
(`time ≥ 1440` and an unvisited current day); it deducts the summed ranger
salaries floored at 0, then — on a qualifying day — increments the
consecutive-day counter, emitting the win signal exactly when the counter
reaches the goal's required days; on an unmet day the counter resets to 0.
Re-running the check in the same day is a no-op. -/
theorem c8_daily_goal_check (st : ModelState) :
    ((st.time < 1440 ∨ st.lastGoalCheckDay = ⌊st.time / 1440⌋) →
        checkGoalsMet st = (st, false))
    ∧ (1440 ≤ st.time → st.lastGoalCheckDay ≠ ⌊st.time / 1440⌋ →
        (checkGoalsMet st).1.balance = max (st.balance - getRangerSalary st.map) 0
        ∧ (checkGoalsMet st).1.lastGoalCheckDay = ⌊st.time / 1440⌋
        ∧ (checkGoalsMet st).1.time = st.time
        ∧ (goalThresholdsMet st (max (st.balance - getRangerSalary st.map) 0) →
            (checkGoalsMet st).1.daysGoalMet = st.daysGoalMet + 1
            ∧ ((checkGoalsMet st).2 = true ↔ st.goal.forDays ≤ st.daysGoalMet + 1))
        ∧ (¬ goalThresholdsMet st (max (st.balance - getRangerSalary st.map) 0) →
            (checkGoalsMet st).1.daysGoalMet = 0 ∧ (checkGoalsMet st).2 = false)
        ∧ checkGoalsMet (checkGoalsMet st).1 = ((checkGoalsMet st).1, false)) := by
  constructor
  · intro h
    have hc : ¬ (1440 ≤ st.time ∧ st.lastGoalCheckDay ≠ ⌊st.time / 1440⌋) := by
      rcases h with h | h
      · exact fun hc => absurd hc.1 (not_le.mpr h)
      · exact fun hc => hc.2 h
    simp only [checkGoalsMet, if_neg hc]
  · intro h1 h2
    have hcond : 1440 ≤ st.time ∧ st.lastGoalCheckDay ≠ ⌊st.time / 1440⌋ := ⟨h1, h2⟩
    by_cases hm : goalThresholdsMet st (max (st.balance - getRangerSalary st.map) 0)
    · have hc : checkGoalsMet st
          = ({ st with balance := max (st.balance - getRangerSalary st.map) 0,
                       daysGoalMet := st.daysGoalMet + 1,
                       lastGoalCheckDay := ⌊st.time / 1440⌋ },
              decide (st.goal.forDays ≤ st.daysGoalMet + 1)) := by
        simp only [checkGoalsMet, if_pos hcond, if_pos hm]
      rw [hc]
      refine ⟨rfl, rfl, rfl, fun _ => ⟨rfl, ⟨of_decide_eq_true, decide_eq_true⟩⟩,
        fun h => absurd hm h, ?_⟩
      simp only [checkGoalsMet]
      rw [if_neg (fun hcc => hcc.2 rfl)]
    · have hc : checkGoalsMet st
          = ({ st with balance := max (st.balance - getRangerSalary st.map) 0,
                       daysGoalMet := 0,
                       lastGoalCheckDay := ⌊st.time / 1440⌋ }, false) := by
        simp only [checkGoalsMet, if_pos hcond, if_neg hm]
      rw [hc]
      refine ⟨rfl, rfl, rfl, fun h => absurd h hm, fun _ => ⟨rfl, rfl⟩, ?_⟩
      simp only [checkGoalsMet]
      rw [if_neg (fun hcc => hcc.2 rfl)]

/-- C8 witness: the day-boundary clause evaluated on the concrete state. -/
theorem c8_daily_goal_check_witness :
    ((1440 : ℚ) ≤ econState.time ∧ econState.lastGoalCheckDay ≠ ⌊econState.time / 1440⌋)
      ∧ ((checkGoalsMet econState).1.balance
            = max (econState.balance - getRangerSalary econState.map) 0
          ∧ (checkGoalsMet econState).1.lastGoalCheckDay = ⌊econState.time / 1440⌋
          ∧ (checkGoalsMet econState).1.time = econState.time
          ∧ (goalThresholdsMet econState
                (max (econState.balance - getRangerSalary econState.map) 0) →
              (checkGoalsMet econState).1.daysGoalMet = econState.daysGoalMet + 1
              ∧ ((checkGoalsMet econState).2 = true ↔
                  econState.goal.forDays ≤ econState.daysGoalMet + 1))
          ∧ (¬ goalThresholdsMet econState
                (max (econState.balance - getRangerSalary econState.map) 0) →
              (checkGoalsMet econState).1.daysGoalMet = 0
                ∧ (checkGoalsMet econState).2 = false)
          ∧ checkGoalsMet (checkGoalsMet econState).1 = ((checkGoalsMet econState).1, false)) := by
  have hday : (⌊econState.time / 1440⌋ : ℤ) = 1 := by
    rw [show econState.time = (1500 : ℚ) from rfl]
    norm_num
  have h1 : (1440 : ℚ) ≤ econState.time := by
    rw [show econState.time = (1500 : ℚ) from rfl]; norm_num
  have h2 : econState.lastGoalCheckDay ≠ ⌊econState.time / 1440⌋ := by
    rw [hday]; decide
  exact ⟨⟨h1, h2⟩, (c8_daily_goal_check econState).2 h1 h2⟩

/-- C9: a purchase whose price exceeds the balance is silently rejected:
`buy` reports failure and every purchase operation returns the model state
completely unchanged — no balance change, no tile placed, no animal or
ranger added, no jeep queued. -/
theorem c9_insufficient_balance (st : ModelState) (k : TileKind) (price : ℚ)
    (x y : ℤ) (a jeep ranger : Sprite) (fg : ℕ)
    (hk : st.balance < price) (ha : st.balance < a.buyPrice)
    (hj : st.balance < jeep.buyPrice) (hrg : st.balance < ranger.buyPrice) :
    (buy st.balance price).1 = false
    ∧ buyTile st (some (k, price)) x y = st
    ∧ buyHerbivore st (some a) fg = st
    ∧ buyCarnivore st (some a) fg = st
    ∧ buyJeep st jeep = st
    ∧ buyRanger st ranger = st := by
  have hb : ∀ p : ℚ, st.balance < p → (buy st.balance p).1 = false := by
    intro p hp
    simp [buy, hp]
  refine ⟨hb price hk, ?_, ?_, ?_, ?_, ?_⟩
  · simp only [buyTile]
    split_ifs with h1 h2 h3 h4 h5 <;> try rfl
    exact absurd h5.2 (by rw [hb price hk]; exact Bool.false_ne_true)
  · simp only [buyHerbivore, buyAnimal]
    rw [if_neg (by rw [hb a.buyPrice ha]; exact Bool.false_ne_true)]
  · simp only [buyCarnivore, buyAnimal]
    rw [if_neg (by rw [hb a.buyPrice ha]; exact Bool.false_ne_true)]
  · simp only [buyJeep]
    rw [if_neg (by rw [hb jeep.buyPrice hj]; exact Bool.false_ne_true)]
  · simp only [buyRanger]
    rw [if_neg (by rw [hb ranger.buyPrice hrg]; exact Bool.false_ne_true)]

/-- C9 witness: a 100-coin tile, animal, jeep and ranger against a 10-coin
balance. -/
theorem c9_insufficient_balance_witness :
    (buy poorState.balance 100).1 = false
      ∧ buyTile poorState (some (TileKind.road, 100)) 1 1 = poorState
      ∧ buyHerbivore poorState (some pricedSprite) 5 = poorState
      ∧ buyCarnivore poorState (some pricedSprite) 5 = poorState
      ∧ buyJeep poorState pricedSprite = poorState
      ∧ buyRanger poorState pricedSprite = poorState :=
  c9_insufficient_balance poorState TileKind.road 100 1 1 pricedSprite pricedSprite
    pricedSprite 5 (by norm_num [poorState]) (by norm_num [poorState, pricedSprite])
    (by norm_num [poorState, pricedSprite]) (by norm_num [poorState, pricedSprite])

/-- No roster mutation disturbs an already-present slot of the iterated
array object: pushes only append, removals reassign. -/
theorem foldl_applyRosterOp_stable (ops : List RosterOp) (st : IterState)
    (k : ℕ) (a : ℕ) (h : st.iterArr.get? k = some a) :
    ((ops.foldl applyRosterOp st).iterArr).get? k = some a := by
  induction ops generalizing st with
  | nil => exact h
  | cons op rest ih =>
    rw [List.foldl_cons]
    apply ih
    cases op with
    | push b =>
        by_cases hs : st.sameObj = true
        · show ((if st.sameObj then _ else _ : IterState)).iterArr.get? k = some a
          rw [if_pos hs]
          have hk : k < st.iterArr.length := List.get?_eq_some.mp h |>.1
          show (st.iterArr ++ [b]).get? k = some a
          rw [List.get?_append hk]
          exact h
        · show ((if st.sameObj then _ else _ : IterState)).iterArr.get? k = some a
          rw [if_neg hs]
          exact h
    | removeById b => exact h

/-- The trace of `runForEach` starting at index `k` is the mapped tail of the
start-of-phase roster. -/
theorem runForEach_trace (effects : ℕ → IterState → List RosterOp) (s : List ℕ) :
    ∀ (n k : ℕ) (st : IterState),
      (∀ i a, s.get? i = some a → st.iterArr.get? i = some a) →
      k + n = s.length →
      (runForEach effects k n st).1 = (s.drop k).map some := by
  intro n
  induction n with
  | zero =>
      intro k st _ hk
      rw [runForEach]
      rw [List.drop_eq_nil_of_le (by omega)]
      rfl
  | succ n ih =>
      intro k st hinv hk
      have hklt : k < s.length := by omega
      have hsk : s.get? k = some (s.get ⟨k, hklt⟩) := List.get?_eq_get hklt
      have hit : st.iterArr.get? k = some (s.get ⟨k, hklt⟩) := hinv k _ hsk
      rw [runForEach, hit]
      dsimp only
      have hinv' : ∀ i a, s.get? i = some a →
          (((effects k st).foldl applyRosterOp st).iterArr).get? i = some a :=
        fun i a hia => foldl_applyRosterOp_stable _ _ _ _ (hinv i a hia)
      rw [ih (k + 1) _ hinv' (by omega)]
      rw [show s.drop k = s.get ⟨k, hklt⟩ :: s.drop (k + 1) from
        (List.drop_eq_get_cons hklt).symm ▸ rfl]
      rfl

/-- C1: within one tick, the `forEach` of the act phase visits exactly the
agents present at the start of the phase, in order — each of them receives
exactly one `act` call; an agent pushed during the tick is never acted on in
the same tick; and mid-iteration removals never make a slot absent, so no
live agent's `act` call is skipped. -/
theorem c1_act_iteration (s : List ℕ) (effects : ℕ → IterState → List RosterOp) :
    (tickActPhase s effects).1 = s.map some
    ∧ (∀ a, a ∉ s → some a ∉ (tickActPhase s effects).1)
    ∧ Option.none ∉ (tickActPhase s effects).1
    ∧ (s.Nodup → ∀ a ∈ s, (tickActPhase s effects).1.count (some a) = 1) := by
  have htrace : (tickActPhase s effects).1 = s.map some := by
    have := runForEach_trace effects s s.length 0 ⟨s, s, true⟩ (fun _ _ h => h) (by omega)
    simpa [tickActPhase] using this
  refine ⟨htrace, ?_, ?_, ?_⟩
  · intro a ha hmem
    rw [htrace] at hmem
    obtain ⟨b, hb, hba⟩ := List.mem_map.mp hmem
    exact ha (Option.some.inj hba ▸ hb)
  · intro hmem
    rw [htrace] at hmem
    obtain ⟨b, _, hb⟩ := List.mem_map.mp hmem
    exact Option.noConfusion hb
  · intro hnd a ha
    have hcnt : ∀ l : List ℕ, (l.map some).count (some a) = l.count a := by
      intro l
      induction l with
      | nil => rfl
      | cons b t ih => simp [List.count_cons, ih]
    rw [htrace, hcnt s]
    exact List.count_eq_one_of_mem hnd ha

/-- C1 witness: with roster `[1, 2, 3]`, agent `1` removing agent `2` and
spawning agent `9` mid-iteration, the trace is still exactly
`[1, 2, 3]` — nobody is skipped, double-stepped, or freshly acted. -/
theorem c1_act_iteration_witness :
    ([1, 2, 3] : List ℕ).Nodup
      ∧ (9 : ℕ) ∉ ([1, 2, 3] : List ℕ)
      ∧ (tickActPhase [1, 2, 3] witnessEffects).1 = [some 1, some 2, some 3]
      ∧ some 9 ∉ (tickActPhase [1, 2, 3] witnessEffects).1
      ∧ Option.none ∉ (tickActPhase [1, 2, 3] witnessEffects).1
      ∧ (tickActPhase [1, 2, 3] witnessEffects).1.count (some 2) = 1 :=
  ⟨by decide, by decide,
    (c1_act_iteration [1, 2, 3] witnessEffects).1,
    (c1_act_iteration [1, 2, 3] witnessEffects).2.1 9 (by decide),
    (c1_act_iteration [1, 2, 3] witnessEffects).2.2.1,
    (c1_act_iteration [1, 2, 3] witnessEffects).2.2.2 (by decide) 2 (by decide)⟩

/-- The `_visibleTiles.find(...)` locating the tile within `0.5` of the
sprite's position on both axes. -/
noncomputable def findCurrentTile (tiles : List TileR) (p : ℝ × ℝ) : Option TileR :=
  tiles.find? fun t => decide (|t.pos.1 - p.1| < 1/2 ∧ |t.pos.2 - p.2| < 1/2)

/-- `Sprite.move(dt, minX, minY, maxX, maxY)`: no-op without a path target or
at distance `0`; otherwise sets the velocity toward the target, computes the
step with the obstacle divisor (`/30` on an obstacle tile, `/10` otherwise),
snaps exactly onto the target when the step would overshoot on both axes
(without clamping), and otherwise advances clamped to the given bounds.
The source also re-emits a visibility request when the current tile changed;
that effect is state-free here and `lastTile` ends up at the current tile
either way. -/
noncomputable def SpriteR.move (s : SpriteR) (dt minX minY maxX maxY : ℝ) : SpriteR :=
  match s.pathTo with
  | none => s
  | some target =>
    let dx := target.1 - s.pos.1
    let dy := target.2 - s.pos.2
    let dist := Real.sqrt (dx * dx + dy * dy)
    if 0 < dist then
      let vel : ℝ × ℝ := (dx / dist * s.speed, dy / dist * s.speed)
      let currentTile := findCurrentTile s.visibleTiles s.pos
      let divisor : ℝ := if (currentTile.map TileR.isObstacle).getD false then 30 else 10
      let moveX := vel.1 * dt / divisor
      let moveY := vel.2 * dt / divisor
      if |dx| ≤ |moveX| ∧ |dy| ≤ |moveY| then
        { s with vel := vel, lastTile := currentTile.map TileR.pos, pos := target }
      else
        { s with vel := vel, lastTile := currentTile.map TileR.pos,
                 pos := (max minX (min maxX (s.pos.1 + moveX)),
                         max minY (min maxY (s.pos.2 + moveY))) }
    else s

/-- The sprite of the C5 scenario: at `(9,0)`, heading to `(10,0)`, speed `1`,
nothing visible. -/
noncomputable def moveSpriteA : SpriteR where
  pos := (9, 0)
  pathTo := some (10, 0)
  vel := (0, 0)
  speed := 1
  visibleTiles := []
  lastTile := none

/-- C5 counterexample: with speed `1` and `dt = 1` we have `s·dt = 1 ≥ 1`,
yet the single movement step leaves the sprite at `(9.1, 0)` — the computed
step is `s·dt/10`, so `s·dt ≥ 1` does not make the sprite snap to `(10,0)`. -/
theorem c5_counterexample :
    moveSpriteA.speed * 1 ≥ 1
      ∧ (moveSpriteA.move 1 0 0 20 20).pos = ((91 / 10 : ℝ), (0 : ℝ))
      ∧ (moveSpriteA.move 1 0 0 20 20).pos ≠ ((10 : ℝ), (0 : ℝ)) := by
  have hspeed : moveSpriteA.speed = 1 := rfl
  have hmove : (moveSpriteA.move 1 0 0 20 20).pos = ((91 / 10 : ℝ), (0 : ℝ)) := by
    unfold SpriteR.move
    rw [show moveSpriteA.pathTo = some ((10 : ℝ), (0 : ℝ)) from rfl]
    dsimp only [moveSpriteA]
    rw [show ((10 : ℝ) - 9) * ((10 : ℝ) - 9) + ((0 : ℝ) - 0) * ((0 : ℝ) - 0) = 1 by norm_num,
      Real.sqrt_one]
    rw [if_pos one_pos]
    rw [show findCurrentTile [] ((9 : ℝ), (0 : ℝ)) = none from rfl]
    dsimp only [Option.map_none', Option.getD_none]
    rw [if_neg (by norm_num [abs_div])]
    norm_num
  refine ⟨by rw [hspeed]; norm_num, hmove, ?_⟩
  rw [hmove]
  intro h
  have := congrArg Prod.fst h
  norm_num at this

/-- C5 (amended): from `(9,0)` toward `(10,0)`, a single movement step snaps
exactly onto `(10,0)` — never past it, and regardless of the clamping
bounds — as soon as the computed step `s·dt/10` reaches the full axis gap,
i.e. when `s·dt ≥ 10` off obstacles (`s·dt ≥ 30` always suffices, obstacle
tile or not). -/
theorem c5_move_snap :
    (∀ (s : SpriteR) (dt minX minY maxX maxY : ℝ),
        s.pos = (9, 0) → s.pathTo = some (10, 0) →
        (∀ t ∈ s.visibleTiles, t.isObstacle = false) → 10 ≤ s.speed * dt →
        (s.move dt minX minY maxX maxY).pos = (10, 0))
    ∧ (∀ (s : SpriteR) (dt minX minY maxX maxY : ℝ),
        s.pos = (9, 0) → s.pathTo = some (10, 0) → 30 ≤ s.speed * dt →
        (s.move dt minX minY maxX maxY).pos = (10, 0)) := by
  have key : ∀ (s : SpriteR) (dt minX minY maxX maxY : ℝ),
      s.pos = (9, 0) → s.pathTo = some (10, 0) →
      (10 ≤ s.speed * dt
        ∧ ((findCurrentTile s.visibleTiles s.pos).map TileR.isObstacle).getD false = false)
      ∨ 30 ≤ s.speed * dt →
      (s.move dt minX minY maxX maxY).pos = (10, 0) := by
    intro s dt minX minY maxX maxY hpos hpath hcase
    unfold SpriteR.move
    rw [hpath, hpos]
    dsimp only
    rw [show ((10 : ℝ) - 9) * ((10 : ℝ) - 9) + ((0 : ℝ) - 0) * ((0 : ℝ) - 0) = 1 by norm_num,
      Real.sqrt_one]
    rw [if_pos one_pos]
    have hsd : 10 ≤ s.speed * dt := by
      rcases hcase with ⟨h, _⟩ | h
      · exact h
      · linarith
    have hstep : (1 : ℝ)
        ≤ |(10 - 9) / 1 * s.speed * dt
            / (if ((findCurrentTile s.visibleTiles ((9 : ℝ), (0 : ℝ))).map
                    TileR.isObstacle).getD false then 30 else 10)| := by
      rcases hcase with ⟨h10, hobs⟩ | h30
      · rw [hpos] at hobs
        rw [hobs, if_neg Bool.false_ne_true]
        rw [abs_of_nonneg (by nlinarith)]
        nlinarith
      · by_cases ho : ((findCurrentTile s.visibleTiles ((9 : ℝ), (0 : ℝ))).map
            TileR.isObstacle).getD false
        · rw [if_pos ho, abs_of_nonneg (by nlinarith)]
          nlinarith
        · rw [if_neg ho, abs_of_nonneg (by nlinarith)]
          nlinarith
    rw [if_pos]
    constructor
    · calc |(10 : ℝ) - 9| = 1 := by norm_num
        _ ≤ _ := hstep
    · calc |(0 : ℝ) - 0| = 0 := by norm_num
        _ ≤ _ := abs_nonneg _
  constructor
  · intro s dt minX minY maxX maxY hpos hpath hobs hsd
    apply key s dt minX minY maxX maxY hpos hpath
    left
    refine ⟨hsd, ?_⟩
    cases hf : findCurrentTile s.visibleTiles s.pos with
    | none => rfl
    | some t =>
        have ht : t ∈ s.visibleTiles := List.mem_of_find?_eq_some hf
        simp [hobs t ht]
  · intro s dt minX minY maxX maxY hpos hpath hsd
    exact key s dt minX minY maxX maxY hpos hpath (Or.inr hsd)

/-- The C5-witness sprite: speed `20`, so `s·dt ≥ 10` already at `dt = 1`. -/
noncomputable def moveSpriteB : SpriteR where
  pos := (9, 0)
  pathTo := some (10, 0)
  vel := (0, 0)
  speed := 20
  visibleTiles := []
  lastTile := none

/-- C5 witness: the amended snap statement at speed `20`, `dt = 1`. -/
theorem c5_move_snap_witness :
    moveSpriteB.pos = ((9 : ℝ), (0 : ℝ))
      ∧ moveSpriteB.pathTo = some ((10 : ℝ), (0 : ℝ))
      ∧ (10 : ℝ) ≤ moveSpriteB.speed * 1
      ∧ (moveSpriteB.move 1 0 0 20 20).pos = ((10 : ℝ), (0 : ℝ)) :=
  ⟨rfl, rfl, by rw [show moveSpriteB.speed = 20 from rfl]; norm_num,
    c5_move_snap.1 moveSpriteB 1 0 0 20 20 rfl rfl (by intro t ht; simp [moveSpriteB] at ht)
      (by rw [show moveSpriteB.speed = 20 from rfl]; norm_num)⟩

/-- `Animal.chooseRandomTarget`: `none` when no non-obstacle tile is visible;
with no visible groupmates a clamped random non-obstacle tile position;
otherwise up to ten random offsets around the groupmates' centroid, skipping
obstacle landing tiles, with the random-tile choice as fallback. -/
noncomputable def chooseRandomTarget (a : AnimalR) (bounds : BoundsR) (o : ActRand) :
    Option (ℝ × ℝ) :=
  let nonObstacleTiles := a.s.visibleTiles.filter fun t => !t.isObstacle
  if nonObstacleTiles.length = 0 then none
  else
    let pick : ℝ → Option (ℝ × ℝ) := fun rnd =>
      match nonObstacleTiles.get? (⌊rnd * nonObstacleTiles.length⌋).toNat with
      | some t => some (max bounds.minX (min bounds.maxX t.pos.1),
                        max bounds.minY (min bounds.maxY t.pos.2))
      | none => none
    let groupmates := a.visibleSprites.filter fun v => v.isAnimal && v.group == a.group
    if groupmates.length = 0 then pick o.tileRand
    else
      let sum := groupmates.foldl (fun acc mate => (acc.1 + mate.pos.1, acc.2 + mate.pos.2))
        ((0 : ℝ), (0 : ℝ))
      let avg : ℝ × ℝ := (sum.1 / groupmates.length, sum.2 / groupmates.length)
      let candidate := (o.attempts.take 10).findSome? fun ra =>
        let radius := 1 + ra.1 * 2.5
        let angle := ra.2 * (2 * Real.pi)
        let targetX := max bounds.minX (min bounds.maxX (avg.1 + Real.cos angle * radius))
        let targetY := max bounds.minY (min bounds.maxY (avg.2 + Real.sin angle * radius))
        match a.s.visibleTiles.find? fun t =>
            decide (⌊t.pos.1⌋ = ⌊targetX⌋ ∧ ⌊t.pos.2⌋ = ⌊targetY⌋) with
        | none => some (targetX, targetY)
        | some t => if t.isObstacle then none else some (targetX, targetY)
      match candidate with
      | some p => some p
      | none => pick o.fallbackRand

/-- `Animal.getNearTiles`: within `0.5` — `≤` on the x axis but `<` on the
y axis, as in the source. -/
noncomputable def getNearTiles (a : AnimalR) : List TileR :=
  a.s.visibleTiles.filter fun t =>
    decide (|t.pos.1 - a.s.pos.1| ≤ 1/2 ∧ |t.pos.2 - a.s.pos.2| < 1/2)

/-- `Sprite.isAtDestination` with the default threshold `0.5` (falsy without
a path target). -/
noncomputable def isAtDestinationB (s : SpriteR) : Bool :=
  match s.pathTo with
  | none => false
  | some t => decide (|s.pos.1 - t.1| ≤ 1/2 ∧ |s.pos.2 - t.2| ≤ 1/2)

/-- `Animal.handleArrival`: clears velocity, path and wander state; a
captured animal dies here (the returned flag is the `animalDeadSignal`
emission); otherwise a long rest starts (`50 + random()·16`), hydration
refills on adjacent water, and the species' `fillFoodLevel` runs. -/
noncomputable def handleArrival (ov : AnimalOverrides) (a : AnimalR) (o : ActRand) :
    AnimalR × Bool :=
  match a.s.pathTo with
  | none => (a, false)
  | some _ =>
    let a1 := { a with s := { a.s with vel := (0, 0), pathTo := none },
                       isWandering := false, targetNeed := NeedStatus.noNeed }
    if a1.isCaptured then (a1, true)
    else
      let a2 := { a1 with restingTime := 50 + o.restRand * 16 }
      let a3 := if (getNearTiles a2).any (fun t => t.isWater) then { a2 with hydration := 100 }
        else a2
      (ov.fillFoodLevel a3, false)

/-- `Animal.decideAction`: need-driven targeting, wandering, arrival handling
or a movement step within the visible bounds. -/
noncomputable def decideAction (ov : AnimalOverrides) (a : AnimalR) (dt : ℝ) (o : ActRand) :
    AnimalR × Bool :=
  let bounds := computeBounds a.s.visibleTiles
  let ct := chooseNeedTarget a
  let a1 :=
    if (ct.1.food < 85 ∨ ct.1.hydration < 80) ∧ ct.1.isCaptured = false then
      match ct.2 with
      | some t => { ct.1 with s := { ct.1.s with pathTo := some t }, isWandering := false }
      | none =>
          if ct.1.isWandering = false then
            { ct.1 with s := { ct.1.s with pathTo := chooseRandomTarget ct.1 bounds o },
                        isWandering := true, targetNeed := NeedStatus.noNeed }
          else { ct.1 with targetNeed := NeedStatus.noNeed }
    else if ct.1.s.pathTo = none ∧ ct.1.isCaptured = false then
      { ct.1 with s := { ct.1.s with pathTo := chooseRandomTarget ct.1 bounds o } }
    else ct.1
  if a1.s.pathTo.isSome ∧ isAtDestinationB a1.s = true then handleArrival ov a1 o
  else ({ a1 with s := a1.s.move dt bounds.minX bounds.minY bounds.maxX bounds.maxY }, false)

/-- The perception stage of `Animal.act`: `updateState` and ageing. -/
noncomputable def actPerception (a : AnimalR) (dt : ℝ) : AnimalR :=
  { updateState a with age := (updateState a).age + dt / 1440 }

/-- The decay stage of `Animal.act`: hunger and thirst decay, skipped while
captured. -/
noncomputable def actDecay (a : AnimalR) (dt : ℝ) (o : ActRand) : AnimalR :=
  if a.isCaptured then a else updateHungerAndThirst a dt o

/-- The hungry/thirsty branch of `Animal.act`: refreshes visibility (state-
free here), runs the species' `updateMemory` and zeroes the resting timer. -/
noncomputable def actHungryRefresh (ov : AnimalOverrides) (a : AnimalR) : AnimalR :=
  if a.food < 85 ∨ a.hydration < 80 then { ov.updateMemory a with restingTime := 0 } else a

/-- `Animal.act(dt)`: perception and ageing, decay (unless captured), the
death check (the flag is the `animalDeadSignal` emission), the hungry/thirsty
refresh that zeroes the resting timer, then either resting or
`decideAction`. -/
noncomputable def animalAct (ov : AnimalOverrides) (a : AnimalR) (dt : ℝ) (o : ActRand) :
    AnimalR × Bool :=
  let a3 := actDecay (actPerception a dt) dt o
  if a3.food ≤ 0 ∨ a3.hydration ≤ 0 then (a3, true)
  else
    let r := isRestingStep (actHungryRefresh ov a3) dt
    if r.2 then (r.1, false) else decideAction ov r.1 dt o

/-- `Animal.capture(pathTo)`: sets the captured flag, refills food and
hydration to `100`, clears the resting timer and retargets the animal. -/
noncomputable def capture (a : AnimalR) (target : ℝ × ℝ) : AnimalR :=
  { a with isCaptured := true, food := 100, hydration := 100, restingTime := 0,
           s := { a.s with pathTo := some target } }

/-- `Animal.updateWaterMemory` (concrete in the base class): remembers the
positions of visible water tiles; forgets a remembered position that is
visible but no longer a water tile. -/
noncomputable def updateWaterMemory (a : AnimalR) : AnimalR :=
  let waterPositions := (a.s.visibleTiles.filter fun t => t.isWater).map TileR.pos
  let seen1 := a.seenWater ++ waterPositions.filter fun p => !decide (p ∈ a.seenWater)
  { a with seenWater := seen1.filter fun p =>
      !(!(waterPositions.any fun q => decide (q = p))
        && (a.s.visibleTiles.any fun t => decide (t.pos.1 = p.1 ∧ t.pos.2 = p.2))) }

/-- `Carnivore.updateFoodMemory`: tracks visible herbivores by registration
number (`Map.set` keeps the insertion slot on update), forgets entries in
view distance whose position no longer holds a visible sprite, and mirrors
the tracked positions into the food-position memory. -/
noncomputable def carnivoreUpdateFoodMemory (a : AnimalR) : AnimalR :=
  let seenH1 := a.visibleSprites.foldl (fun acc v =>
      if v.isHerbivore then
        if acc.any fun e => decide (e.1 = v.id) then
          acc.map fun e => if decide (e.1 = v.id) then (e.1, v.pos) else e
        else acc ++ [(v.id, v.pos)]
      else acc) a.seenHerbivores
  let seenH2 := seenH1.filter fun e =>
    !((decide (|a.s.pos.1 - e.2.1| ≤ a.viewDistance)
        && decide (|a.s.pos.2 - e.2.2| ≤ a.viewDistance))
      && !(a.visibleSprites.any fun v => decide (v.pos.1 = e.2.1 ∧ v.pos.2 = e.2.2)))
  { a with seenHerbivores := seenH2, seenFood := seenH2.map Prod.snd }

/-- `Carnivore.fillFoodLevel`: eating a visible, uncaptured herbivore within
`0.5` on both axes refills the food level (the victim's death emission is an
effect on the map, not on this animal's state). -/
noncomputable def carnivoreFillFoodLevel (a : AnimalR) : AnimalR :=
  if a.visibleSprites.any fun v =>
      v.isHerbivore && decide (|v.pos.1 - a.s.pos.1| ≤ 1/2)
        && decide (|v.pos.2 - a.s.pos.2| ≤ 1/2) && !v.isBeingCaptured
  then { a with food := 100 } else a

/-- The concrete overrides of `Carnivore` (inherited unchanged by
`BlackPanther`). -/
noncomputable def carnivoreOverrides : AnimalOverrides where
  updateMemory := fun a => carnivoreUpdateFoodMemory (updateWaterMemory a)
  fillFoodLevel := carnivoreFillFoodLevel

/-- The decay stage leaves everything but food and hydration alone. -/
theorem actDecay_s (a : AnimalR) (dt : ℝ) (o : ActRand) :
    (actDecay a dt o).s = a.s ∧ (actDecay a dt o).restingTime = a.restingTime
      ∧ (actDecay a dt o).isCaptured = a.isCaptured := by
  unfold actDecay
  split <;> exact ⟨rfl, rfl, rfl⟩

/-- C6 (amended): an agent with resting timer `T > 0`, ticked with
`0 ≤ dt < T`, keeps its position and ends with resting timer `T − dt` and no
death — provided the post-decay levels leave it neither hungry
(`food ≥ 85`) nor thirsty (`hydration ≥ 80`); a hungry or thirsty agent
instead has its timer reset to `0` (the counterexample). -/
theorem c6_resting_timer (ov : AnimalOverrides) (a : AnimalR) (dt : ℝ) (o : ActRand)
    (hT : 0 < a.restingTime) (hdtT : dt < a.restingTime)
    (hfood : 85 ≤ (actDecay (actPerception a dt) dt o).food)
    (hhyd : 80 ≤ (actDecay (actPerception a dt) dt o).hydration) :
    (animalAct ov a dt o).1.s.pos = a.s.pos
    ∧ (animalAct ov a dt o).1.restingTime = a.restingTime - dt
    ∧ (animalAct ov a dt o).2 = false := by
  obtain ⟨hs3, hr3, _⟩ := actDecay_s (actPerception a dt) dt o
  have hs3' : (actDecay (actPerception a dt) dt o).s = a.s := by rw [hs3]; rfl
  have hr3' : (actDecay (actPerception a dt) dt o).restingTime = a.restingTime := by
    rw [hr3]; rfl
  have hdeath : ¬ ((actDecay (actPerception a dt) dt o).food ≤ 0
      ∨ (actDecay (actPerception a dt) dt o).hydration ≤ 0) := by
    push_neg
    exact ⟨by linarith, by linarith⟩
  have hnh : ¬ ((actDecay (actPerception a dt) dt o).food < 85
      ∨ (actDecay (actPerception a dt) dt o).hydration < 80) := by
    push_neg
    exact ⟨by linarith, by linarith⟩
  have ha4 : actHungryRefresh ov (actDecay (actPerception a dt) dt o)
      = actDecay (actPerception a dt) dt o := by
    unfold actHungryRefresh
    rw [if_neg hnh]
  unfold animalAct
  rw [if_neg hdeath]
  dsimp only
  rw [ha4]
  unfold isRestingStep
  rw [if_pos (show 0 < (actDecay (actPerception a dt) dt o).restingTime by
    rw [hr3']; exact hT)]
  dsimp only
  rw [if_pos rfl]
  refine ⟨?_, ?_, rfl⟩
  · show (actDecay (actPerception a dt) dt o).s.pos = a.s.pos
    rw [hs3']
  · show max 0 ((actDecay (actPerception a dt) dt o).restingTime - dt) = a.restingTime - dt
    rw [hr3']
    exact max_eq_right (by linarith)

/-- A resting, hungry (food `50 < 85`) animal seeing nothing. -/
noncomputable def hungryAnimal : AnimalR where
  s := { pos := (3, 3), pathTo := none, vel := (0, 0), speed := 1,
         visibleTiles := [], lastTile := none }
  viewDistance := 2
  restingTime := 10
  age := 30
  food := 50
  hydration := 100
  isCaptured := false
  isWandering := false
  isOnHill := false
  targetNeed := NeedStatus.noNeed
  group := 0
  visibleSprites := []
  seenFood := []
  seenWater := []
  seenHerbivores := []

/-- The same animal, well fed. -/
noncomputable def restedAnimal : AnimalR :=
  { hungryAnimal with food := 100, restingTime := 5 }

/-- Unit random draws. -/
noncomputable def unitRand : ActRand where
  hydFactor := 1
  foodFactor := 1
  restRand := 0
  tileRand := 0
  fallbackRand := 0
  attempts := []

/-- C6 counterexample: the hungry animal with resting timer `10`, acted with
`dt = 0 < 10`, ends with resting timer `0`, not `10 − 0` — the
hungry/thirsty branch of `act` zeroes the timer instead of counting it
down. -/
theorem c6_counterexample :
    0 < hungryAnimal.restingTime
      ∧ (0 : ℝ) ≤ 0 ∧ (0 : ℝ) < hungryAnimal.restingTime
      ∧ (animalAct carnivoreOverrides hungryAnimal 0 unitRand).1.restingTime = 0
      ∧ (animalAct carnivoreOverrides hungryAnimal 0 unitRand).1.restingTime
          ≠ hungryAnimal.restingTime - 0 := by
  have hT : (0 : ℝ) < hungryAnimal.restingTime := by
    rw [show hungryAnimal.restingTime = 10 from rfl]
    norm_num
  have key : (animalAct carnivoreOverrides hungryAnimal 0 unitRand).1.restingTime = 0 := by
    norm_num [animalAct, actDecay, actPerception, updateState, updateHungerAndThirst,
      interpolateRange, actHungryRefresh, isRestingStep, decideAction, chooseNeedTarget,
      findClosest, chooseRandomTarget, computeBounds, isAtDestinationB, handleArrival,
      getNearTiles, SpriteR.move, findCurrentTile, carnivoreOverrides,
      carnivoreUpdateFoodMemory, updateWaterMemory, carnivoreFillFoodLevel,
      hungryAnimal, unitRand]
  refine ⟨hT, le_refl 0, hT, key, ?_⟩
  rw [key, show hungryAnimal.restingTime = 10 from rfl]
  norm_num

/-- C6 witness: the amended statement on the well-fed animal with timer `5`
and `dt = 0`. -/
theorem c6_resting_timer_witness :
    0 < restedAnimal.restingTime
      ∧ (0 : ℝ) < restedAnimal.restingTime
      ∧ 85 ≤ (actDecay (actPerception restedAnimal 0) 0 unitRand).food
      ∧ 80 ≤ (actDecay (actPerception restedAnimal 0) 0 unitRand).hydration
      ∧ (animalAct carnivoreOverrides restedAnimal 0 unitRand).1.s.pos = restedAnimal.s.pos
      ∧ (animalAct carnivoreOverrides restedAnimal 0 unitRand).1.restingTime
          = restedAnimal.restingTime - 0
      ∧ (animalAct carnivoreOverrides restedAnimal 0 unitRand).2 = false := by
  have hT : (0 : ℝ) < restedAnimal.restingTime := by
    rw [show restedAnimal.restingTime = 5 from rfl]
    norm_num
  have hfood : 85 ≤ (actDecay (actPerception restedAnimal 0) 0 unitRand).food := by
    norm_num [actDecay, actPerception, updateState, updateHungerAndThirst, interpolateRange,
      restedAnimal, hungryAnimal, unitRand]
  have hhyd : 80 ≤ (actDecay (actPerception restedAnimal 0) 0 unitRand).hydration := by
    norm_num [actDecay, actPerception, updateState, updateHungerAndThirst, interpolateRange,
      restedAnimal, hungryAnimal, unitRand]
  obtain ⟨h1, h2, h3⟩ := c6_resting_timer carnivoreOverrides restedAnimal 0 unitRand hT hT
    hfood hhyd
  exact ⟨hT, hT, hfood, hhyd, h1, h2, h3⟩

/-- C10: `capture(target)` sets the captured flag, refills food and hydration
to `100`, clears the resting timer and retargets the animal; and any captured
animal with full levels keeps food and hydration at `100` through `act(dt)`
(the decay is skipped), stays captured, and the only way `act` emits the
death signal is the arrival-while-captured event: not resting, a path target
set, and the destination reached. -/
theorem c10_capture_invariant (a : AnimalR) (target : ℝ × ℝ) (ov : AnimalOverrides)
    (dt : ℝ) (o : ActRand) :
    ((capture a target).isCaptured = true
      ∧ (capture a target).food = 100
      ∧ (capture a target).hydration = 100
      ∧ (capture a target).restingTime = 0
      ∧ (capture a target).s.pathTo = some target)
    ∧ (∀ b : AnimalR, b.isCaptured = true → b.food = 100 → b.hydration = 100 →
        (animalAct ov b dt o).1.food = 100
        ∧ (animalAct ov b dt o).1.hydration = 100
        ∧ (animalAct ov b dt o).1.isCaptured = true
        ∧ ((animalAct ov b dt o).2 = true ↔
            ¬ 0 < b.restingTime ∧ b.s.pathTo.isSome = true
              ∧ isAtDestinationB b.s = true)) := by
  refine ⟨⟨rfl, rfl, rfl, rfl, rfl⟩, ?_⟩
  intro b hc hf hh
  have hdec : actDecay (actPerception b dt) dt o = actPerception b dt := by
    unfold actDecay
    rw [if_pos (show (actPerception b dt).isCaptured = true from hc)]
  have hfood3 : (actDecay (actPerception b dt) dt o).food = 100 := by rw [hdec]; exact hf
  have hhyd3 : (actDecay (actPerception b dt) dt o).hydration = 100 := by rw [hdec]; exact hh
  have hdeath : ¬ ((actDecay (actPerception b dt) dt o).food ≤ 0
      ∨ (actDecay (actPerception b dt) dt o).hydration ≤ 0) := by
    push_neg
    rw [hfood3, hhyd3]
    norm_num
  have hnh : ¬ ((actDecay (actPerception b dt) dt o).food < 85
      ∨ (actDecay (actPerception b dt) dt o).hydration < 80) := by
    push_neg
    rw [hfood3, hhyd3]
    norm_num
  have ha4 : actHungryRefresh ov (actDecay (actPerception b dt) dt o)
      = actDecay (actPerception b dt) dt o := by
    unfold actHungryRefresh
    rw [if_neg hnh]
  unfold animalAct
  rw [if_neg hdeath]
  dsimp only
  rw [ha4, hdec]
  by_cases hr : 0 < b.restingTime
  · have hrs : isRestingStep (actPerception b dt) dt
        = ({ actPerception b dt with
              restingTime := max 0 ((actPerception b dt).restingTime - dt) }, true) := by
      unfold isRestingStep
      rw [if_pos (show 0 < (actPerception b dt).restingTime from hr)]
    rw [hrs]
    dsimp only
    rw [if_pos rfl]
    exact ⟨hf, hh, hc, ⟨fun h => absurd h Bool.false_ne_true,
      fun h => absurd hr h.1⟩⟩
  · have hrs : isRestingStep (actPerception b dt) dt = (actPerception b dt, false) := by
      unfold isRestingStep
      rw [if_neg (show ¬ 0 < (actPerception b dt).restingTime from hr)]
    rw [hrs]
    dsimp only
    rw [if_neg Bool.false_ne_true]
    have hfd : (actPerception b dt).food = 100 := hf
    have hhd : (actPerception b dt).hydration = 100 := hh
    have hfd' : ¬ ((actPerception b dt).food < 85) := by rw [hfd]; norm_num
    have hhd' : ¬ ((actPerception b dt).hydration < 80) := by rw [hhd]; norm_num
    have hcap' : ¬ ((actPerception b dt).isCaptured = false) :=
      fun h => Bool.false_ne_true (h.symm.trans hc)
    have hcnt : chooseNeedTarget (actPerception b dt) = (actPerception b dt, none) := by
      unfold chooseNeedTarget
      rw [if_neg (show ¬ ((actPerception b dt).hydration < 80
          ∧ (actPerception b dt).targetNeed ≠ NeedStatus.food) from fun hx => hhd' hx.1)]
      dsimp only
      rw [if_neg (show ¬ (((actPerception b dt).food < 85
          ∧ (actPerception b dt).targetNeed ≠ NeedStatus.drink)
          ∨ ((actPerception b dt).food < 85 ∧ (none : Option (ℝ × ℝ)) = none)) by
        rintro (⟨hx, _⟩ | ⟨hx, _⟩) <;> exact hfd' hx)]
    unfold decideAction
    rw [hcnt]
    dsimp only
    rw [if_neg (show ¬ (((actPerception b dt).food < 85
        ∨ (actPerception b dt).hydration < 80)
          ∧ (actPerception b dt).isCaptured = false) from fun hx => hcap' hx.2)]
    rw [if_neg (show ¬ ((actPerception b dt).s.pathTo = none
        ∧ (actPerception b dt).isCaptured = false) from fun hx => hcap' hx.2)]
    by_cases harr : b.s.pathTo.isSome = true ∧ isAtDestinationB b.s = true
    · rw [if_pos (show (actPerception b dt).s.pathTo.isSome = true
          ∧ isAtDestinationB (actPerception b dt).s = true from harr)]
      obtain ⟨t, ht⟩ := Option.isSome_iff_exists.mp harr.1
      unfold handleArrival
      rw [show (actPerception b dt).s.pathTo = some t from ht]
      dsimp only
      rw [if_pos (show (actPerception b dt).isCaptured = true from hc)]
      exact ⟨hf, hh, hc, ⟨fun _ => ⟨hr, harr.1, harr.2⟩, fun _ => rfl⟩⟩
    · rw [if_neg (show ¬ ((actPerception b dt).s.pathTo.isSome = true
          ∧ isAtDestinationB (actPerception b dt).s = true) from harr)]
      exact ⟨hf, hh, hc, ⟨fun h => absurd h Bool.false_ne_true,
        fun h => absurd ⟨h.2.1, h.2.2⟩ harr⟩⟩

/-- The captured test animal: standing on its own path target. -/
noncomputable def capturedAnimal : AnimalR :=
  capture hungryAnimal (3, 3)

/-- C10 witness: the captured animal (full levels, timer `0`, standing at its
target) keeps its levels and dies by the arrival-while-captured event. -/
theorem c10_capture_invariant_witness :
    capturedAnimal.isCaptured = true
      ∧ capturedAnimal.food = 100
      ∧ capturedAnimal.hydration = 100
      ∧ (animalAct carnivoreOverrides capturedAnimal 0 unitRand).1.food = 100
      ∧ (animalAct carnivoreOverrides capturedAnimal 0 unitRand).1.hydration = 100
      ∧ (animalAct carnivoreOverrides capturedAnimal 0 unitRand).1.isCaptured = true
      ∧ (animalAct carnivoreOverrides capturedAnimal 0 unitRand).2 = true := by
  have hdest : isAtDestinationB capturedAnimal.s = true := by
    unfold isAtDestinationB
    rw [show capturedAnimal.s.pathTo = some ((3 : ℝ), (3 : ℝ)) from rfl]
    rw [decide_eq_true_eq]
    constructor <;>
      · rw [show capturedAnimal.s.pos = ((3 : ℝ), (3 : ℝ)) from rfl]
        norm_num
  obtain ⟨h1, h2, h3, h4⟩ :=
    (c10_capture_invariant hungryAnimal (3, 3) carnivoreOverrides 0 unitRand).2
      capturedAnimal rfl rfl rfl
  refine ⟨rfl, rfl, rfl, h1, h2, h3, h4.mpr ⟨?_, rfl, hdest⟩⟩
  rw [show capturedAnimal.restingTime = (0 : ℝ) from rfl]
  norm_num

/-- Membership in `Map.neighbors`: exactly the 4-adjacent, in-bounds,
road-kind cells. -/
theorem mem_neighborsOf {m : MapState} {c nb : ℤ × ℤ} :
    nb ∈ neighborsOf m c ↔
      adjacent4 c nb ∧ cellInBounds m nb ∧ isRoadKind (m.tiles nb) := by
  unfold neighborsOf
  rw [List.mem_filterMap]
  constructor
  · rintro ⟨d, hd, hsome⟩
    simp only [List.mem_cons, List.not_mem_nil, or_false] at hd
    rw [Option.ite_none_right_eq_some, Option.some.injEq] at hsome
    obtain ⟨⟨hb, hr⟩, rfl⟩ := hsome
    refine ⟨?_, hb, hr⟩
    rcases hd with rfl | rfl | rfl | rfl <;>
      · unfold adjacent4
        simp
        try omega
  · rintro ⟨hadj, hb, hr⟩
    have hd : ∃ d ∈ ([(-1, 0), (0, -1), (0, 1), (1, 0)] : List (ℤ × ℤ)),
        nb = (c.1 + d.1, c.2 + d.2) := by
      obtain ⟨x, y⟩ := nb
      obtain ⟨cx, cy⟩ := c
      rcases hadj with ⟨h1, h2 | h2⟩ | ⟨h1, h2 | h2⟩
      · exact ⟨(0, -1), by norm_num, by simp at h1 h2 ⊢; omega⟩
      · exact ⟨(0, 1), by norm_num, by simp at h1 h2 ⊢; omega⟩
      · exact ⟨(-1, 0), by norm_num, by simp at h1 h2 ⊢; omega⟩
      · exact ⟨(1, 0), by norm_num, by simp at h1 h2 ⊢; omega⟩
    obtain ⟨d, hdmem, rfl⟩ := hd
    refine ⟨d, hdmem, ?_⟩
    rw [Option.ite_none_right_eq_some, Option.some.injEq]
    exact ⟨⟨hb, hr⟩, rfl⟩

/-- Soundness of the DFS: a nonempty result yields a simple exit path from
`cur` avoiding the visited set, through road-kind in-bounds cells (after the
start cell). -/
theorem dfs_sound (m : MapState) :
    ∀ (fuel : ℕ) (cur : ℤ × ℤ) (path visited : List (ℤ × ℤ)),
      cur ∉ visited →
      dfs m fuel cur path visited ≠ [] →
      ∃ q : List (ℤ × ℤ),
        q.head? = some cur
        ∧ (∃ e, q.getLast? = some e ∧ m.tiles e = TileKind.exit)
        ∧ q.Chain' adjacent4
        ∧ q.Nodup
        ∧ (∀ c ∈ q, c ∉ visited)
        ∧ (∀ c ∈ q.tail, cellInBounds m c ∧ isRoadKind (m.tiles c)) := by
  intro fuel
  induction fuel with
  | zero =>
      intro cur path visited _ hne
      exact absurd rfl hne
  | succ fuel ih =>
      intro cur path visited hcur hne
      unfold dfs at hne
      by_cases hexit : m.tiles cur = TileKind.exit
      · refine ⟨[cur], by simp, ⟨cur, by simp, hexit⟩, by simp, by simp, ?_, by simp⟩
        intro c hc
        rw [List.mem_singleton] at hc
        subst hc
        exact hcur
      · rw [if_neg hexit] at hne
        obtain ⟨q0, hq0⟩ := List.exists_mem_of_ne_nil _ hne
        obtain ⟨nb, hnb, hq0in⟩ := List.mem_flatMap.mp hq0
        by_cases hg : nb ∈ cur :: visited
        · rw [if_pos hg] at hq0in
          cases hq0in
        · rw [if_neg hg] at hq0in
          have hrec : dfs m fuel nb (path ++ [cur]) (cur :: visited) ≠ [] :=
            List.ne_nil_of_mem hq0in
          obtain ⟨q, hhead, hexitq, hchain, hnd, hdisj, htail⟩ :=
            ih nb (path ++ [cur]) (cur :: visited) hg hrec
          obtain ⟨nb', q', rfl⟩ : ∃ h t, q = h :: t := by
            cases q with
            | nil => cases hhead
            | cons h t => exact ⟨h, t, rfl⟩
          have hnb' : nb = nb' := by
            have := hhead
            simp only [List.head?_cons, Option.some.injEq] at this
            exact this.symm
          subst hnb'
          obtain ⟨hadj, hbnd, hroad⟩ := mem_neighborsOf.mp hnb
          refine ⟨cur :: nb :: q', rfl, ?_, ?_, ?_, ?_, ?_⟩
          · obtain ⟨e, he, hee⟩ := hexitq
            exact ⟨e, by rw [List.getLast?_cons_cons]; exact he, hee⟩
          · exact List.chain'_cons.mpr ⟨hadj, hchain⟩
          · rw [List.nodup_cons]
            refine ⟨?_, hnd⟩
            intro hcurmem
            exact (hdisj cur hcurmem) (List.mem_cons_self _ _)
          · intro c hc
            rcases List.mem_cons.mp hc with rfl | hc'
            · exact hcur
            · intro hcv
              exact (hdisj c hc') (List.mem_cons_of_mem _ hcv)
          · intro c hc
            rcases List.mem_cons.mp hc with rfl | hc'
            · exact ⟨hbnd, hroad⟩
            · exact htail c hc'

/-- Completeness of the DFS: any simple exit path from `cur` avoiding the
visited set is found, given enough fuel. -/
theorem dfs_complete (m : MapState) :
    ∀ (fuel : ℕ) (q : List (ℤ × ℤ)) (cur : ℤ × ℤ) (path visited : List (ℤ × ℤ)),
      q.head? = some cur →
      (∃ e, q.getLast? = some e ∧ m.tiles e = TileKind.exit) →
      q.Chain' adjacent4 →
      q.Nodup →
      (∀ c ∈ q, c ∉ visited) →
      (∀ c ∈ q.tail, cellInBounds m c ∧ isRoadKind (m.tiles c)) →
      q.length ≤ fuel →
      dfs m fuel cur path visited ≠ [] := by
  intro fuel
  induction fuel with
  | zero =>
      intro q cur path visited hhead _ _ _ _ _ hlen
      cases q with
      | nil => cases hhead
      | cons a t => simp at hlen
  | succ fuel ih =>
      intro q cur path visited hhead hexitq hchain hnd hdisj htail hlen
      obtain ⟨c0, q', rfl⟩ : ∃ h t, q = h :: t := by
        cases q with
        | nil => cases hhead
        | cons h t => exact ⟨h, t, rfl⟩
      have hc0 : cur = c0 := by
        have := hhead
        simp only [List.head?_cons, Option.some.injEq] at this
        exact this.symm
      subst hc0
      by_cases hexit : m.tiles cur = TileKind.exit
      · unfold dfs
        rw [if_pos hexit]
        simp
      · obtain ⟨nb, q'', rfl⟩ : ∃ h t, q' = h :: t := by
          cases q' with
          | nil =>
              obtain ⟨e, he, hee⟩ := hexitq
              rw [show ([cur] : List (ℤ × ℤ)).getLast? = some cur from rfl] at he
              rw [Option.some.injEq] at he
              subst he
              exact absurd hee hexit
          | cons h t => exact ⟨h, t, rfl⟩
        have hadj : adjacent4 cur nb := (List.chain'_cons.mp hchain).1
        obtain ⟨hbnd, hroad⟩ := htail nb (List.mem_cons_self _ _)
        have hnb : nb ∈ neighborsOf m cur := mem_neighborsOf.mpr ⟨hadj, hbnd, hroad⟩
        have hndc := List.nodup_cons.mp hnd
        have hguard : nb ∉ cur :: visited := by
          intro h
          rcases List.mem_cons.mp h with rfl | hv
          · exact hndc.1 (List.mem_cons_self _ _)
          · exact (hdisj nb (List.mem_cons_of_mem _ (List.mem_cons_self _ _))) hv
        have hrec : dfs m fuel nb (path ++ [cur]) (cur :: visited) ≠ [] := by
          refine ih (nb :: q'') nb (path ++ [cur]) (cur :: visited) rfl ?_ ?_ ?_ ?_ ?_ ?_
          · obtain ⟨e, he, hee⟩ := hexitq
            exact ⟨e, by rw [List.getLast?_cons_cons] at he; exact he, hee⟩
          · exact (List.chain'_cons.mp hchain).2
          · exact hndc.2
          · intro c hc
            intro hcv
            rcases List.mem_cons.mp hcv with rfl | hv
            · exact hndc.1 hc
            · exact (hdisj c (List.mem_cons_of_mem _ hc)) hv
          · intro c hc
            exact htail c (List.mem_cons_of_mem _ hc)
          · have := hlen
            simp only [List.length_cons] at this ⊢
            omega
        unfold dfs
        rw [if_neg hexit]
        obtain ⟨y, hy⟩ := List.exists_mem_of_ne_nil _ hrec
        exact List.ne_nil_of_mem
          (List.mem_flatMap.mpr ⟨nb, hnb, by rw [if_neg hguard]; exact hy⟩)

/-- A duplicate-free list of in-bounds cells has at most `width · height`
entries — hence `width · height + 1` fuel suffices for the DFS. -/
theorem validPath_length_le (m : MapState) (q : List (ℤ × ℤ)) (hnd : q.Nodup)
    (hin : ∀ c ∈ q, cellInBounds m c) : q.length ≤ m.width * m.height := by
  have hsub : q.toFinset ⊆ (Finset.range m.width ×ˢ Finset.range m.height).image
      (fun p : ℕ × ℕ => ((p.1 : ℤ), (p.2 : ℤ))) := by
    intro c hc
    rw [List.mem_toFinset] at hc
    obtain ⟨h1, h2, h3, h4⟩ := hin c hc
    rw [Finset.mem_image]
    refine ⟨(c.1.toNat, c.2.toNat), ?_, ?_⟩
    · rw [Finset.mem_product, Finset.mem_range, Finset.mem_range]
      constructor <;> omega
    · obtain ⟨x, y⟩ := c
      simp only [Prod.mk.injEq]
      constructor <;> simp <;> omega
  calc q.length = q.toFinset.card := (List.toFinset_card_of_nodup hnd).symm
    _ ≤ ((Finset.range m.width ×ˢ Finset.range m.height).image
          (fun p : ℕ × ℕ => ((p.1 : ℤ), (p.2 : ℤ)))).card := Finset.card_le_card hsub
    _ ≤ (Finset.range m.width ×ˢ Finset.range m.height).card := Finset.card_image_le
    _ = m.width * m.height := by
        rw [Finset.card_product, Finset.card_range, Finset.card_range]

/-- C4: on a nonempty map whose `(0,0)` cell holds the entrance tile,
`planRoads` returns `true` exactly when at least one simple path exists from
the entrance cell to an exit cell through in-bounds road-kind cells using
4-directional adjacency only (no diagonal steps, cycle avoidance scoped to
the current DFS branch); and setting the model's `isOpen` to `true` while no
such path exists is silently rejected, leaving the open flag unchanged. -/
theorem c4_plan_roads (m : MapState)
    (hent : m.tiles (0, 0) = TileKind.entrance)
    (hw : 0 < m.width) (hh : 0 < m.height) :
    ((planRoads m).2 = true ↔ ∃ p, ValidRoadPath m p)
      ∧ ∀ st : ModelState, st.map = m → (planRoads m).2 = false →
          (setIsOpen st true).isOpen = st.isOpen := by
  have hbounds0 : cellInBounds m ((0 : ℤ), (0 : ℤ)) :=
    ⟨le_refl _, by show (0 : ℤ) < (m.width : ℤ); exact_mod_cast hw,
      le_refl _, by show (0 : ℤ) < (m.height : ℤ); exact_mod_cast hh⟩
  have hroad0 : isRoadKind (m.tiles (0, 0)) := by
    rw [hent]; exact Or.inr (Or.inl rfl)
  have hdec : (planRoads m).2 = decide (planRoadsPaths m ≠ []) := rfl
  constructor
  · constructor
    · intro htrue
      rw [hdec] at htrue
      have hne : planRoadsPaths m ≠ [] := of_decide_eq_true htrue
      obtain ⟨q, hhead, hexitq, hchain, hnd, _, htail⟩ :=
        dfs_sound m (m.width * m.height + 1) (0, 0) [] []
          (List.not_mem_nil _) (by unfold planRoadsPaths at hne; exact hne)
      obtain ⟨c0, q', rfl⟩ : ∃ h t, q = h :: t := by
        cases q with
        | nil => cases hhead
        | cons h t => exact ⟨h, t, rfl⟩
      have hc0 : c0 = (0, 0) := by
        simp only [List.head?_cons, Option.some.injEq] at hhead
        exact hhead
      subst hc0
      refine ⟨(0, 0) :: q', rfl, hexitq, hchain, hnd, ?_⟩
      intro c hc
      rcases List.mem_cons.mp hc with rfl | hc'
      · exact ⟨hbounds0, hroad0⟩
      · exact htail c hc'
    · rintro ⟨p, hhead, hexitq, hchain, hnd, hall⟩
      have hne : planRoadsPaths m ≠ [] := by
        unfold planRoadsPaths
        refine dfs_complete m (m.width * m.height + 1) p (0, 0) [] []
          hhead hexitq hchain hnd ?_ ?_ ?_
        · intro c _ hcv
          cases hcv
        · intro c hc
          exact hall c (List.mem_of_mem_tail hc)
        · have := validPath_length_le m p hnd (fun c hc => (hall c hc).1)
          omega
      rw [hdec]
      exact decide_eq_true hne
  · intro st hst hfalse
    subst hst
    unfold setIsOpen
    rw [if_pos (rfl : (true : Bool) = true), if_pos hfalse]

/-- C4 witness: on the 2×1 entrance–exit map `planRoads` reports `true`, the
two-cell path being valid; on the exit-less 1×1 map it reports `false` and
setting `isOpen` to `true` leaves the closed state closed. -/
theorem c4_plan_roads_witness :
    ((planRoads roadMap).2 = true ∧ ValidRoadPath roadMap [(0, 0), (1, 0)])
      ∧ ((planRoads noRoadMap).2 = false
          ∧ (setIsOpen noRoadState true).isOpen = noRoadState.isOpen) := by
  have hvalid : ValidRoadPath roadMap [(0, 0), (1, 0)] := by
    refine ⟨rfl, ⟨(1, 0), rfl, by decide⟩, ?_, by decide, by decide⟩
    rw [List.chain'_cons]
    exact ⟨by decide, List.chain'_singleton _⟩
  have hfalse : (planRoads noRoadMap).2 = false := by decide
  refine ⟨⟨?_, hvalid⟩, hfalse, ?_⟩
  · exact (c4_plan_roads roadMap (by decide) (by decide) (by decide)).1.mpr
      ⟨[(0, 0), (1, 0)], hvalid⟩
  · exact (c4_plan_roads noRoadMap (by decide) (by decide) (by decide)).2
      noRoadState rfl hfalse

end Safari
